import Mathlib

/-! chaincode_example02: a shallow embedding

The Go program `chaincode_example02.go` keeps integer balances under string keys
in a ledger reached through `shim.ChaincodeStub`, and resolves the identity of
the caller from certificates.  This file embeds the program in Lean:

* Go strings and byte slices are Lean strings (a `nil` slice is `none`); the
  program inspects them only for ASCII characters (digits, signs, the
  backslash), which no multi-byte UTF-8 sequence contains;
* Go `int` is 64 bits wide: an `Int` kept in the range `[-2^63, 2^63)` by
  `wrapInt` wherever the Go code does arithmetic;
* the stub is an explicit state: the ledger contents, the error (if any) the
  store gives to a read, write or delete of each key, and the list of calls
  made so far; output written with `fmt` is not part of the state;
* a run-time panic of Go (index out of range, nil dereference) is the
  outcome `GoResult.panic`.
-/

namespace Chaincode

/-! ## strconv -/

/-- The two error kinds of `strconv.NumError`. -/
inductive NumError where
  | ErrSyntax
  | ErrRange
deriving DecidableEq, Repr

/-- Largest `uint64`. -/
def maxUint64 : Nat := 2 ^ 64 - 1

/-- Conversion of an arbitrary integer to Go's 64-bit `int` (two's complement). -/
def wrapInt (z : Int) : Int := (z + 2 ^ 63) % 2 ^ 64 - 2 ^ 63

/-- The digit loop of `strconv.ParseUint(s, 10, 64)`, with `n` the value read so far. -/
def parseUintLoop : List Char → Nat → Nat × Option NumError
  | [], n => (n, none)
  | d :: s, n =>
    if '0' ≤ d ∧ d ≤ '9' then
      let v := d.toNat - '0'.toNat
      -- cutoff = maxUint64/10 + 1: n*10 would overflow
      if n ≥ maxUint64 / 10 + 1 then (maxUint64, some NumError.ErrRange)
      else
        let n10 := n * 10
        let n1 := (n10 + v) % 2 ^ 64
        if n1 < n10 ∨ n1 > maxUint64 then (maxUint64, some NumError.ErrRange)
        else parseUintLoop s n1
    else (0, some NumError.ErrSyntax)

/-- Go `strconv.ParseUint(s, 10, 64)`. -/
def ParseUint (s : List Char) : Nat × Option NumError :=
  match s with
  | [] => (0, some NumError.ErrSyntax)
  | _ => parseUintLoop s 0

/-- The part of `strconv.ParseInt` after the sign has been picked off. -/
def parseIntSigned (neg : Bool) (s : List Char) : Int × Option NumError :=
  match ParseUint s with
  | (_, some NumError.ErrSyntax) => (0, some NumError.ErrSyntax)
  | (un, _) =>
    let cutoff : Nat := 2 ^ 63
    if !neg ∧ un ≥ cutoff then ((cutoff : Int) - 1, some NumError.ErrRange)
    else if neg ∧ un > cutoff then (-(cutoff : Int), some NumError.ErrRange)
    else
      let n := wrapInt un
      (if neg then wrapInt (-n) else n, none)

/-- Go `strconv.ParseInt(s, 10, 0)` on a 64-bit platform. -/
def ParseInt (s : List Char) : Int × Option NumError :=
  match s with
  | [] => (0, some NumError.ErrSyntax)
  | c :: rest =>
    if c = '+' then parseIntSigned false rest
    else if c = '-' then parseIntSigned true rest
    else parseIntSigned false (c :: rest)

/-- Go `strconv.Atoi`: the value and the error (`none` is `nil`).  The value
that accompanies an error is 0 for a syntax error and the nearest bound of
`int` for a range error. -/
def Atoi (s : String) : Int × Option NumError := ParseInt s.data

/-- The loop of `strconv.formatBits` for base 10: digits are produced from the
least significant end while `u >= 10`; the recursion is on `fuel`, and
`fuel = u` always suffices. -/
def formatBitsLoop : Nat → Nat → List Char → List Char
  | 0, u, acc => Char.ofNat ('0'.toNat + u) :: acc
  | fuel + 1, u, acc =>
    if u ≥ 10 then formatBitsLoop fuel (u / 10) (Char.ofNat ('0'.toNat + u % 10) :: acc)
    else Char.ofNat ('0'.toNat + u) :: acc

/-- Decimal digits of an unsigned value. -/
def formatBits (u : Nat) : List Char := formatBitsLoop u u []

/-- Go `strconv.Itoa` (`FormatInt(int64(i), 10)`). -/
def Itoa (i : Int) : String :=
  if i < 0 then String.mk ('-' :: formatBits i.natAbs) else String.mk (formatBits i.natAbs)

/-! ## Go values -/

/-- A Go `error` value: one made by `errors.New` in this program, or one handed
over by the stub.  Two errors of different origin are never the same value. -/
inductive GoError where
  | New (text : String)
  | shim (text : String)
deriving DecidableEq, Repr

/-- Outcome of a Go function that can panic at run time. -/
inductive GoResult (α : Type) where
  | ret (a : α)
  | panic (msg : String)

/-- The result pair `([]byte, error)` of the chaincode entry points. -/
abbrev Ret := Option String × Option GoError

/-! ## shim.ChaincodeStub and the other collaborators -/

/-- A call made to an external collaborator. -/
inductive Call where
  | GetState (key : String)
  | PutState (key : String) (value : String)
  | DelState (key : String)
  | GetCallerCertificate
  | httpGet (url : String)
deriving DecidableEq, Repr

/-- The stub: the ledger (a key with no stored value maps to `none`), the
error, if any, the store gives to a read, write or delete of each key, the
caller certificate (bytes, or the error of retrieving it), and the calls
recorded so far. -/
structure ChaincodeStub where
  ledger : String → Option String
  getErr : String → Option String
  putErr : String → Option String
  delErr : String → Option String
  callerCertificate : Except String String
  calls : List Call

/-- Go `stub.GetState(key)`. -/
def ChaincodeStub.GetState (stub : ChaincodeStub) (key : String) :
    (Option String × Option GoError) × ChaincodeStub :=
  let stub1 := { stub with calls := stub.calls ++ [Call.GetState key] }
  match stub.getErr key with
  | some e => ((none, some (GoError.shim e)), stub1)
  | none => ((stub.ledger key, none), stub1)

/-- Go `stub.PutState(key, value)`. -/
def ChaincodeStub.PutState (stub : ChaincodeStub) (key : String) (value : String) :
    Option GoError × ChaincodeStub :=
  let stub1 := { stub with calls := stub.calls ++ [Call.PutState key value] }
  match stub.putErr key with
  | some e => (some (GoError.shim e), stub1)
  | none =>
    (none, { stub1 with ledger := fun k => if k = key then some value else stub.ledger k })

/-- Go `stub.DelState(key)`. -/
def ChaincodeStub.DelState (stub : ChaincodeStub) (key : String) :
    Option GoError × ChaincodeStub :=
  let stub1 := { stub with calls := stub.calls ++ [Call.DelState key] }
  match stub.delErr key with
  | some e => (some (GoError.shim e), stub1)
  | none => (none, { stub1 with ledger := fun k => if k = key then none else stub.ledger k })

/-- Go `stub.GetCallerCertificate()`. -/
def ChaincodeStub.GetCallerCertificate (stub : ChaincodeStub) :
    (Option String × Option GoError) × ChaincodeStub :=
  let stub1 := { stub with calls := stub.calls ++ [Call.GetCallerCertificate] }
  match stub.callerCertificate with
  | Except.error e => ((none, some (GoError.shim e)), stub1)
  | Except.ok bytes => ((some bytes, none), stub1)

/-- The field of `x509.Certificate` the program reads: `Subject.CommonName`. -/
structure Certificate where
  CommonName : String
deriving DecidableEq, Repr

/-- An `http.Response`: reading its body gives the contents, or fails (`none`). -/
structure Response where
  Body : Option String
deriving DecidableEq, Repr

/-- The struct `ECertResponse`. -/
structure ECertResponse where
  OK : String
deriving DecidableEq, Repr

/-- The library functions and the network, taken as given: `none` is the
error result (for `pemDecode`, the nil block). -/
structure Env where
  ParseCertificate : String → Option Certificate
  QueryUnescape : String → Option String
  pemDecode : String → Option String
  httpGet : String → Option Response
  jsonUnmarshal : String → Option ECertResponse

/-! ## strings.Split -/

/-- Go `strings.Split(s, "\\")` on the characters of `s`: the segments between
backslashes; there is always at least one segment. -/
def splitBackslash : List Char → List (List Char)
  | [] => [[]]
  | c :: cs =>
    if c = '\\' then [] :: splitBackslash cs
    else
      match splitBackslash cs with
      | seg :: segs => (c :: seg) :: segs
      | [] => [[c]]

/-- Go `strings.Split(cn, "\\")`. -/
def Split (cn : String) : List String := (splitBackslash cn.data).map String.mk

/-! ## The chaincode -/

/-- `SimpleChaincode.Init` (lines 38-74).  Output of `fmt.Printf` is not modelled. -/
def Init (stub : ChaincodeStub) (_function : String) (args : List String) :
    Ret × ChaincodeStub :=
  match args with
  | [A, a1, B, a3] =>
    match Atoi a1 with
    | (_, some _) => ((none, some (GoError.New "Expecting integer value for asset holding")), stub)
    | (Aval, none) =>
      match Atoi a3 with
      | (_, some _) =>
        ((none, some (GoError.New "Expecting integer value for asset holding")), stub)
      | (Bval, none) =>
        -- Write the state to the ledger
        match stub.PutState A (Itoa Aval) with
        | (some err, stub1) => ((none, some err), stub1)
        | (none, stub1) =>
          match stub1.PutState B (Itoa Bval) with
          | (some err, stub2) => ((none, some err), stub2)
          | (none, stub2) => ((none, none), stub2)
  | _ => ((none, some (GoError.New "Incorrect number of arguments. Expecting 4")), stub)

/-- `SimpleChaincode.invoke` (lines 77-130): payment of X units from A to B.
The errors of the three `strconv.Atoi` calls are dropped, as in the source. -/
def invoke (stub : ChaincodeStub) (args : List String) : Ret × ChaincodeStub :=
  match args with
  | [A, B, a2] =>
    -- Get the state from the ledger
    match stub.GetState A with
    | ((_, some _), stub1) => ((none, some (GoError.New "Failed to get state")), stub1)
    | ((none, none), stub1) => ((none, some (GoError.New "Entity not found")), stub1)
    | ((some Avalbytes, none), stub1) =>
      let Aval := (Atoi Avalbytes).1
      match stub1.GetState B with
      | ((_, some _), stub2) => ((none, some (GoError.New "Failed to get state")), stub2)
      | ((none, none), stub2) => ((none, some (GoError.New "Entity not found")), stub2)
      | ((some Bvalbytes, none), stub2) =>
        let Bval := (Atoi Bvalbytes).1
        -- Perform the execution
        let X := (Atoi a2).1
        let Aval := wrapInt (Aval - X)
        let Bval := wrapInt (Bval + X)
        -- Write the state back to the ledger
        match stub2.PutState A (Itoa Aval) with
        | (some err, stub3) => ((none, some err), stub3)
        | (none, stub3) =>
          match stub3.PutState B (Itoa Bval) with
          | (some err, stub4) => ((none, some err), stub4)
          | (none, stub4) => ((none, none), stub4)
  | _ => ((none, some (GoError.New "Incorrect number of arguments. Expecting 3")), stub)

/-- `SimpleChaincode.delete` (lines 133-149).  The text of the argument-count
error says 3 although one argument is expected, as in the source. -/
def delete (stub : ChaincodeStub) (args : List String) : Ret × ChaincodeStub :=
  match args with
  | [A] =>
    -- Delete the key from the state in ledger
    match stub.DelState A with
    | (some _, stub1) => ((none, some (GoError.New "Failed to delete state")), stub1)
    | (none, stub1) => ((none, none), stub1)
  | _ => ((none, some (GoError.New "Incorrect number of arguments. Expecting 3")), stub)

/-- `SimpleChaincode.varunWrite` (lines 246-258).  `json.Marshal` of
`cust{"24", "Varun Ojha", 32}` encodes the only exported field, `ID`. -/
def varunWrite (stub : ChaincodeStub) (_args : List String) : Ret × ChaincodeStub :=
  let bytes := "\x7b\"id\":\"24\"\x7d"
  match stub.PutState "varun_name" bytes with
  | (some err, stub1) => ((none, some err), stub1)
  | (none, stub1) => ((none, none), stub1)

/-- `varunRead` (lines 260-270): `args[0]` is read without a length check. -/
def varunRead (stub : ChaincodeStub) (args : List String) : GoResult (Ret × ChaincodeStub) :=
  match args with
  | [] => GoResult.panic "index out of range"
  | str :: _ =>
    if str = "state" then GoResult.ret (stub.GetState "varun_name")
    else GoResult.ret ((some "Finally it works", none), stub)

/-- The statements of `Query` that follow the `return` of line 207 inside the
`function == "query"` block (lines 209-232); control never reaches them. -/
def queryLookup (stub : ChaincodeStub) (args : List String) : Ret × ChaincodeStub :=
  match args with
  | [A] =>
    match stub.GetState A with
    | ((_, some _), stub1) =>
      ((none, some (GoError.New ("\x7b\"Error\":\"Failed to get state for " ++ A ++ "\"\x7d"))),
        stub1)
    | ((none, none), stub1) =>
      ((none, some (GoError.New ("\x7b\"Error\":\"Nil amount for " ++ A ++ "\"\x7d"))), stub1)
    | ((some Avalbytes, none), stub1) => ((some Avalbytes, none), stub1)
  | _ =>
    ((none,
      some (GoError.New "Incorrect number of arguments. Expecting name of the person to query")),
      stub)

/-- `SimpleChaincode.Query` (lines 202-236): for the function name "query" the
first statement that is not a print is `return nil, errors.New(...)`. -/
def Query (stub : ChaincodeStub) (function : String) (args : List String) :
    GoResult (Ret × ChaincodeStub) :=
  if function = "query" then
    GoResult.ret
      ((none, some (GoError.New "Invalid query function name. Expecting \"query\"")), stub)
  else varunRead stub args

/-- `SimpleChaincode.GetEcert` (lines 281-302). -/
def GetEcert (env : Env) (stub : ChaincodeStub) (name : String) : Ret × ChaincodeStub :=
  match stub.GetState "Peer_Address" with
  | ((_, some _), stub1) => ((none, some (GoError.New "Error retrieving peer address")), stub1)
  | ((peer_address, none), stub1) =>
    let url := "http://" ++ peer_address.getD "" ++ "/registrar/" ++ name ++ "/ecert"
    let stub2 := { stub1 with calls := stub1.calls ++ [Call.httpGet url] }
    match env.httpGet url with
    | none => ((none, some (GoError.New "Error calling ecert API")), stub2)
    | some response =>
      match response.Body with
      | none => ((none, some (GoError.New "Could not read body")), stub2)
      | some contents =>
        match env.jsonUnmarshal contents with
        | none =>
          ((none, some (GoError.New ("Could not retrieve ecert for user: " ++ name))), stub2)
        | some cert => ((some cert.OK, none), stub2)

/-- `SimpleChaincode.GetUsername` (lines 310-318). -/
def GetUsername (env : Env) (stub : ChaincodeStub) :
    (String × Option GoError) × ChaincodeStub :=
  match stub.GetCallerCertificate with
  | ((_, some _), stub1) => (("", some (GoError.New "Couldn't retrieve caller certificate")), stub1)
  | ((bytes, none), stub1) =>
    match env.ParseCertificate (bytes.getD "") with
    | none => (("", some (GoError.New "Couldn't parse certificate")), stub1)
    | some x509Cert => ((x509Cert.CommonName, none), stub1)

/-- `SimpleChaincode.CheckAffiliation` (lines 325-344).  `pem.Bytes` is read
from the block `pem.Decode` returns, and `res[2]` from the split common name,
neither with a check. -/
def CheckAffiliation (env : Env) (_stub : ChaincodeStub) (cert : String) :
    GoResult (Int × Option GoError) :=
  match env.QueryUnescape cert with
  | none => GoResult.ret (-1, some (GoError.New "Could not decode certificate"))
  | some decodedCert =>
    match env.pemDecode decodedCert with
    | none => GoResult.panic "invalid memory address or nil pointer dereference"
    | some pemBytes =>
      match env.ParseCertificate pemBytes with
      | none => GoResult.ret (-1, some (GoError.New "Couldn't parse certificate"))
      | some x509Cert =>
        let cn := x509Cert.CommonName
        let res := Split cn
        match res[2]? with
        | none => GoResult.panic "index out of range"
        | some seg =>
          let affiliation := (Atoi seg).1
          GoResult.ret (affiliation, none)

/-- `SimpleChaincode.GetCallerdata` (lines 351-384). -/
def GetCallerdata (env : Env) (stub : ChaincodeStub) : GoResult (Ret × ChaincodeStub) :=
  match GetUsername env stub with
  | ((_, some err), stub1) => GoResult.ret ((none, some err), stub1)
  | ((user, none), stub1) =>
    match GetEcert env stub1 user with
    | ((_, some err), stub2) => GoResult.ret ((none, some err), stub2)
    | ((ecert, none), stub2) =>
      match CheckAffiliation env stub2 (ecert.getD "") with
      | GoResult.panic msg => GoResult.panic msg
      | GoResult.ret (_, some err) => GoResult.ret ((none, some err), stub2)
      | GoResult.ret (_, none) => GoResult.ret ((some user, none), stub2)

/-- `SimpleChaincode.Invoke` (lines 153-179). -/
def Invoke (env : Env) (stub : ChaincodeStub) (function : String) (args : List String) :
    GoResult (Ret × ChaincodeStub) :=
  if function = "invoke" then GoResult.ret (invoke stub args)
  else if function = "init" then GoResult.ret (Init stub function args)
  else if function = "delete" then GoResult.ret (delete stub args)
  else if function = "varunWrite" then GoResult.ret (varunWrite stub args)
  else if function = "callerData" then GetCallerdata env stub
  else GoResult.ret ((none, some (GoError.New "Received unknown function invocation")), stub)

/-- `SimpleChaincode.Run` (lines 181-199). -/
def Run (stub : ChaincodeStub) (function : String) (args : List String) : Ret × ChaincodeStub :=
  if function = "invoke" then invoke stub args
  else if function = "init" then Init stub function args
  else if function = "delete" then delete stub args
  else ((none, some (GoError.New "Received unknown function invocation")), stub)

/-! ## Concrete stubs and collaborators -/

/-- A reliable store holding nothing, with no caller certificate available. -/
def emptyStub : ChaincodeStub where
  ledger := fun _ => none
  getErr := fun _ => none
  putErr := fun _ => none
  delErr := fun _ => none
  callerCertificate := Except.error "no certificate"
  calls := []

/-- A reliable store in which A holds 100 and B holds 200. -/
def stubAB : ChaincodeStub :=
  { emptyStub with
    ledger := fun k => if k = "A" then some "100" else if k = "B" then some "200" else none }

/-- Collaborators for concrete runs: every decoding step is the identity, a
certificate is given by its common name, and the registrar is unreachable. -/
def plainEnv : Env where
  ParseCertificate := fun bytes => some { CommonName := bytes }
  QueryUnescape := fun s => some s
  pemDecode := fun s => some s
  httpGet := fun _ => none
  jsonUnmarshal := fun s => some { OK := s }

/-- The store of `stubAB` after `varunWrite`: "varun_name" holds JSON bytes. -/
def stubVarun : ChaincodeStub := (varunWrite stubAB []).2

/-- A store holding A=100 and B=200 that refuses every write of B. -/
def stubWriteFails : ChaincodeStub :=
  { stubAB with putErr := fun k => if k = "B" then some "write refused" else none }

/-- The number a string of decimal digits denotes, continuing from `n`: the
mathematical value, with no bound, against which the results of `Atoi` on
numerals are stated. -/
def decimalAcc : List Char → Nat → Nat
  | [], n => n
  | d :: s, n => decimalAcc s (n * 10 + (d.toNat - '0'.toNat))

/-- The number a string of decimal digits denotes. -/
def decimalValue (s : List Char) : Nat := decimalAcc s 0

/-- A reliable store in which A holds a numeral below the range of `int` and
B holds 200. -/
def stubBelowRange : ChaincodeStub :=
  { emptyStub with
    ledger := fun k =>
      if k = "A" then some "-9223372036854775809" else if k = "B" then some "200" else none }

/-- The errors of the argument-count checks (lines 46, 86 and 137). -/
def isArgumentCountError (e : GoError) : Prop :=
  e = GoError.New "Incorrect number of arguments. Expecting 4" ∨
    e = GoError.New "Incorrect number of arguments. Expecting 3"

instance (e : GoError) : Decidable (isArgumentCountError e) := by
  unfold isArgumentCountError
  infer_instance

end Chaincode

namespace Chaincode

/-! ## Facts about strconv -/

theorem wrapInt_of_inRange (z : Int) (h1 : -2 ^ 63 ≤ z) (h2 : z < 2 ^ 63) : wrapInt z = z := by
  unfold wrapInt
  omega

theorem wrapInt_inRange (z : Int) : -2 ^ 63 ≤ wrapInt z ∧ wrapInt z < 2 ^ 63 := by
  unfold wrapInt
  omega

theorem digit_char (v : Nat) (h : v < 10) :
    ('0' ≤ Char.ofNat ('0'.toNat + v) ∧ Char.ofNat ('0'.toNat + v) ≤ '9') ∧
      (Char.ofNat ('0'.toNat + v)).toNat - '0'.toNat = v ∧
      Char.ofNat ('0'.toNat + v) ≠ '+' ∧ Char.ofNat ('0'.toNat + v) ≠ '-' := by
  interval_cases v <;> decide

theorem parseUintLoop_append (s t : List Char) (n : Nat) :
    parseUintLoop (s ++ t) n =
      match parseUintLoop s n with
      | (m, none) => parseUintLoop t m
      | r => r := by
  induction s generalizing n with
  | nil => simp [parseUintLoop]
  | cons c s ih =>
    rw [List.cons_append, parseUintLoop.eq_2, parseUintLoop.eq_2]
    simp only []
    split_ifs
    · rfl
    · rfl
    · exact ih _
    · rfl

theorem formatBitsLoop_acc (fuel u : Nat) (acc : List Char) :
    formatBitsLoop fuel u acc = formatBitsLoop fuel u [] ++ acc := by
  induction fuel generalizing u acc with
  | zero => simp [formatBitsLoop]
  | succ fuel ih =>
    simp only [formatBitsLoop]
    split_ifs
    · rw [ih, ih (u / 10) [_]]
      simp
    · simp

theorem formatBitsLoop_step (fuel u : Nat) (h : 10 ≤ u) :
    formatBitsLoop (fuel + 1) u [] =
      formatBitsLoop fuel (u / 10) [] ++ [Char.ofNat ('0'.toNat + u % 10)] := by
  simp only [formatBitsLoop]
  rw [if_pos h, formatBitsLoop_acc]

theorem parseUintLoop_digit (v m : Nat) (hv : v < 10) (hm : m * 10 + v < 2 ^ 64) :
    parseUintLoop [Char.ofNat ('0'.toNat + v)] m = (m * 10 + v, none) := by
  obtain ⟨hd, hval, _, _⟩ := digit_char v hv
  rw [parseUintLoop.eq_2, if_pos hd]
  simp only [hval, parseUintLoop, maxUint64]
  have h1 : ¬ (m ≥ (2 ^ 64 - 1) / 10 + 1) := by omega
  have h2 : (m * 10 + v) % 2 ^ 64 = m * 10 + v := Nat.mod_eq_of_lt hm
  rw [if_neg h1, h2, if_neg (by omega)]

theorem parseUintLoop_formatBitsLoop (fuel u : Nat) (hf : u ≤ fuel) (hu : u < 2 ^ 64) :
    parseUintLoop (formatBitsLoop fuel u []) 0 = (u, none) := by
  induction fuel generalizing u with
  | zero =>
    obtain rfl : u = 0 := by omega
    decide
  | succ fuel ih =>
    by_cases h : 10 ≤ u
    · rw [formatBitsLoop_step _ _ h, parseUintLoop_append, ih (u / 10) (by omega) (by omega)]
      simp only []
      rw [parseUintLoop_digit _ _ (Nat.mod_lt _ (by decide)) (by omega)]
      congr 1
      omega
    · rw [formatBitsLoop.eq_2, if_neg (by omega)]
      have := parseUintLoop_digit u 0 (by omega) (by omega)
      simpa using this

theorem formatBitsLoop_head (fuel u : Nat) (hf : u ≤ fuel) :
    ∃ c cs, formatBitsLoop fuel u [] = c :: cs ∧ c ≠ '+' ∧ c ≠ '-' := by
  induction fuel generalizing u with
  | zero =>
    obtain rfl : u = 0 := by omega
    exact ⟨_, _, rfl, by decide, by decide⟩
  | succ fuel ih =>
    by_cases h : 10 ≤ u
    · obtain ⟨c, cs, hc, h1, h2⟩ := ih (u / 10) (by omega)
      exact ⟨c, cs ++ [Char.ofNat ('0'.toNat + u % 10)],
        by rw [formatBitsLoop_step _ _ h, hc]; rfl, h1, h2⟩
    · obtain ⟨_, _, h1, h2⟩ := digit_char u (by omega)
      exact ⟨_, [], by rw [formatBitsLoop.eq_2, if_neg (by omega)], h1, h2⟩

theorem ParseUint_formatBits (u : Nat) (hu : u < 2 ^ 64) : ParseUint (formatBits u) = (u, none) := by
  obtain ⟨c, cs, hc, _, _⟩ := formatBitsLoop_head u u le_rfl
  have h := parseUintLoop_formatBitsLoop u u le_rfl hu
  unfold formatBits
  rw [hc] at h ⊢
  exact h

/-- Reading back what `Itoa` wrote gives the same `int`, with no error. -/
theorem Atoi_Itoa (i : Int) (h1 : -2 ^ 63 ≤ i) (h2 : i < 2 ^ 63) : Atoi (Itoa i) = (i, none) := by
  unfold Atoi Itoa
  by_cases hneg : i < 0
  · rw [if_pos hneg]
    have hu : i.natAbs < 2 ^ 64 := by omega
    simp only [ParseInt, parseIntSigned, ParseUint_formatBits _ hu]
    simp only [Char.reduceEq, if_false, if_true, reduceIte]
    have hle : ¬ (i.natAbs > 2 ^ 63) := by omega
    rw [if_neg (by simp), if_neg (fun h => hle h.2)]
    have hw : wrapInt (-wrapInt (i.natAbs : Int)) = i := by
      unfold wrapInt
      omega
    simp only [if_true, hw]
  · rw [if_neg hneg]
    obtain ⟨c, cs, hc, hp, hm⟩ := formatBitsLoop_head i.natAbs i.natAbs le_rfl
    have hu : i.natAbs < 2 ^ 64 := by omega
    have hP := ParseUint_formatBits _ hu
    unfold formatBits at hP ⊢
    rw [hc] at hP ⊢
    simp only [ParseInt, if_neg hp, if_neg hm, parseIntSigned, hP]
    have hle : ¬ (i.natAbs ≥ 2 ^ 63) := by omega
    rw [if_neg (fun h => hle h.2), if_neg (by simp)]
    have hw : wrapInt (i.natAbs : Int) = i := by
      unfold wrapInt
      omega
    simp only [Bool.false_eq_true, if_false, hw]

/-! ## Facts about the stub -/

theorem GetState_ok (stub : ChaincodeStub) (key : String) (h : stub.getErr key = none) :
    stub.GetState key =
      ((stub.ledger key, none), { stub with calls := stub.calls ++ [Call.GetState key] }) := by
  simp [ChaincodeStub.GetState, h]

theorem PutState_ok (stub : ChaincodeStub) (key value : String) (h : stub.putErr key = none) :
    stub.PutState key value =
      (none, { stub with
        calls := stub.calls ++ [Call.PutState key value]
        ledger := fun k => if k = key then some value else stub.ledger k }) := by
  simp [ChaincodeStub.PutState, h]

theorem DelState_ok (stub : ChaincodeStub) (key : String) (h : stub.delErr key = none) :
    stub.DelState key =
      (none, { stub with
        calls := stub.calls ++ [Call.DelState key]
        ledger := fun k => if k = key then none else stub.ledger k }) := by
  simp [ChaincodeStub.DelState, h]

/-! ## The transfer -/

/-- C1: over a store whose reads and writes of A and B succeed, when distinct
keys A and B hold texts that `Atoi` reads as `a` and `b` and the amount text
reads as `x`, `invoke` returns no error, A then holds the decimal text of
`a - x` and B that of `b + x`, both in wrapping 64-bit arithmetic. -/
theorem invoke_transfer (stub : ChaincodeStub) (A B X sa sb : String) (a b x : Int)
    (hAB : A ≠ B)
    (hA : stub.ledger A = some sa) (hB : stub.ledger B = some sb)
    (ha : Atoi sa = (a, none)) (hb : Atoi sb = (b, none)) (hx : Atoi X = (x, none))
    (hgA : stub.getErr A = none) (hgB : stub.getErr B = none)
    (hpA : stub.putErr A = none) (hpB : stub.putErr B = none) :
    (invoke stub [A, B, X]).1 = (none, none) ∧
      (invoke stub [A, B, X]).2.ledger A = some (Itoa (wrapInt (a - x))) ∧
      (invoke stub [A, B, X]).2.ledger B = some (Itoa (wrapInt (b + x))) := by
  simp [invoke, GetState_ok, PutState_ok, hA, hB, ha, hb, hx, hgA, hgB, hpA, hpB, hAB]

/-- Witness of C1: with A=100 and B=200, the transfer of 50 leaves A=50 and B=250. -/
theorem invoke_transfer_witness :
    (invoke stubAB ["A", "B", "50"]).1 = (none, none) ∧
      (invoke stubAB ["A", "B", "50"]).2.ledger "A" = some "50" ∧
      (invoke stubAB ["A", "B", "50"]).2.ledger "B" = some "250" :=
  invoke_transfer stubAB "A" "B" "50" "100" "200" 100 200 50 (by decide) rfl rfl
    (by decide) (by decide) (by decide) rfl rfl rfl rfl

/-- C2: when the reads succeed and key A has no stored value, or A has one and
key B has none, `invoke` returns the error "Entity not found", the ledger is
what it was, and the only calls made to the stub are reads. -/
theorem invoke_entity_not_found (stub : ChaincodeStub) (A B X : String)
    (hgA : stub.getErr A = none)
    (h : stub.ledger A = none ∨
      ((∃ v, stub.ledger A = some v) ∧ stub.getErr B = none ∧ stub.ledger B = none)) :
    (invoke stub [A, B, X]).1 = (none, some (GoError.New "Entity not found")) ∧
      (invoke stub [A, B, X]).2.ledger = stub.ledger ∧
      ∃ reads, (invoke stub [A, B, X]).2.calls = stub.calls ++ reads ∧
        ∀ c ∈ reads, ∃ k, c = Call.GetState k := by
  rcases h with hA | ⟨⟨v, hA⟩, hgB, hB⟩
  · refine ⟨by simp [invoke, GetState_ok, hgA, hA], by simp [invoke, GetState_ok, hgA, hA],
      [Call.GetState A], by simp [invoke, GetState_ok, hgA, hA], ?_⟩
    intro c hc
    exact ⟨A, by simpa using hc⟩
  · refine ⟨by simp [invoke, GetState_ok, hgA, hA, hgB, hB],
      by simp [invoke, GetState_ok, hgA, hA, hgB, hB],
      [Call.GetState A, Call.GetState B], by simp [invoke, GetState_ok, hgA, hA, hgB, hB], ?_⟩
    intro c hc
    simp only [List.mem_cons, List.mem_singleton, List.not_mem_nil, or_false] at hc
    rcases hc with rfl | rfl
    · exact ⟨A, rfl⟩
    · exact ⟨B, rfl⟩

/-- Witness of C2: a transfer from X, which was never initialised, to B. -/
theorem invoke_entity_not_found_witness :
    (invoke stubAB ["X", "B", "10"]).1 = (none, some (GoError.New "Entity not found")) ∧
      (invoke stubAB ["X", "B", "10"]).2.ledger = stubAB.ledger ∧
      ∃ reads, (invoke stubAB ["X", "B", "10"]).2.calls = stubAB.calls ++ reads ∧
        ∀ c ∈ reads, ∃ k, c = Call.GetState k :=
  invoke_entity_not_found stubAB "X" "B" "10" rfl (Or.inl (by decide))

/-! ## Initialisation -/

/-- C3: over a store whose writes of A and B succeed, when `Atoi` accepts the
two value texts as `a` and `b`, `Init` returns no payload and no error;
afterwards B holds the decimal text of `b` and, when A differs from B, A holds
the decimal text of `a`, whatever the ledger held before. -/
theorem Init_writes (stub : ChaincodeStub) (function A va B vb : String) (a b : Int)
    (ha : Atoi va = (a, none)) (hb : Atoi vb = (b, none))
    (hpA : stub.putErr A = none) (hpB : stub.putErr B = none) :
    (Init stub function [A, va, B, vb]).1 = (none, none) ∧
      (Init stub function [A, va, B, vb]).2.ledger B = some (Itoa b) ∧
      (A ≠ B → (Init stub function [A, va, B, vb]).2.ledger A = some (Itoa a)) := by
  refine ⟨by simp [Init, PutState_ok, ha, hb, hpA, hpB],
    by simp [Init, PutState_ok, ha, hb, hpA, hpB], ?_⟩
  intro hAB
  simp [Init, PutState_ok, ha, hb, hpA, hpB, hAB]

/-- Witness of C3: A, which held 100, is overwritten, and the text "+7" is
stored as "7". -/
theorem Init_writes_witness :
    (Init stubAB "init" ["A", "+7", "B", "5"]).1 = (none, none) ∧
      (Init stubAB "init" ["A", "+7", "B", "5"]).2.ledger "B" = some "5" ∧
      ("A" ≠ "B" → (Init stubAB "init" ["A", "+7", "B", "5"]).2.ledger "A" = some "7") :=
  Init_writes stubAB "init" "A" "+7" "B" "5" 7 5 (by decide) (by decide) rfl rfl

/-- C4: when `Atoi` rejects the first or the second value text, `Init` returns
the error "Expecting integer value for asset holding" and the stub is what it
was: no write was made, also when only the second text is invalid. -/
theorem Init_invalid_amount (stub : ChaincodeStub) (function A va B vb : String)
    (h : (Atoi va).2 ≠ none ∨ (Atoi vb).2 ≠ none) :
    Init stub function [A, va, B, vb] =
      ((none, some (GoError.New "Expecting integer value for asset holding")), stub) := by
  rcases hva : Atoi va with ⟨a, _ | ea⟩
  · rcases hvb : Atoi vb with ⟨b, _ | eb⟩
    · simp [hva, hvb] at h
    · simp [Init, hva, hvb]
  · simp [Init, hva]

/-- Witness of C4: the value text "notanumber". -/
theorem Init_invalid_amount_witness :
    Init emptyStub "init" ["A", "notanumber", "B", "5"] =
      ((none, some (GoError.New "Expecting integer value for asset holding")), emptyStub) :=
  Init_invalid_amount emptyStub "init" "A" "notanumber" "B" "5" (Or.inl (by decide))

/-- C5: after `Init` of A=100 and B=200 on a reliable store, `Query` with the
function name "query" and the key A returns the error of line 207 and no
payload, although A holds "100" and the statements after that `return`
(lines 209-232) would hand back "100". -/
theorem Query_after_Init :
    Query (Init emptyStub "init" ["A", "100", "B", "200"]).2 "query" ["A"] =
        GoResult.ret
          ((none, some (GoError.New "Invalid query function name. Expecting \"query\"")),
            (Init emptyStub "init" ["A", "100", "B", "200"]).2) ∧
      (Init emptyStub "init" ["A", "100", "B", "200"]).1 = (none, none) ∧
      (Init emptyStub "init" ["A", "100", "B", "200"]).2.ledger "A" = some "100" ∧
      (queryLookup (Init emptyStub "init" ["A", "100", "B", "200"]).2 ["A"]).1 =
        (some "100", none) := by
  refine ⟨rfl, by decide, by decide, by decide⟩

/-! ## Argument counts -/

theorem PutState_error (stub stub1 : ChaincodeStub) (key value : String) (e : GoError)
    (h : stub.PutState key value = (some e, stub1)) : ∃ t, e = GoError.shim t := by
  unfold ChaincodeStub.PutState at h
  split at h
  · simp only [Prod.mk.injEq, Option.some.injEq] at h
    exact ⟨_, h.1.symm⟩
  · simp at h

theorem not_isArgumentCountError_shim (t : String) : ¬ isArgumentCountError (GoError.shim t) := by
  simp [isArgumentCountError]

/-- C6: `Init` returns an argument-count error when the number of arguments is
not 4, `invoke` when it is not 3, `delete` when it is not 1, and in each case
the stub is what it was (no call to the store was made); with the required
number of arguments none of the three returns an argument-count error. -/
theorem argument_count (stub : ChaincodeStub) (function : String) (args : List String) :
    (args.length ≠ 4 → Init stub function args =
        ((none, some (GoError.New "Incorrect number of arguments. Expecting 4")), stub)) ∧
      (args.length ≠ 3 → invoke stub args =
        ((none, some (GoError.New "Incorrect number of arguments. Expecting 3")), stub)) ∧
      (args.length ≠ 1 → delete stub args =
        ((none, some (GoError.New "Incorrect number of arguments. Expecting 3")), stub)) ∧
      (args.length = 4 → ∀ e, (Init stub function args).1.2 = some e → ¬ isArgumentCountError e) ∧
      (args.length = 3 → ∀ e, (invoke stub args).1.2 = some e → ¬ isArgumentCountError e) ∧
      (args.length = 1 → ∀ e, (delete stub args).1.2 = some e → ¬ isArgumentCountError e) := by
  refine ⟨?_, ?_, ?_, ?_, ?_, ?_⟩
  · intro h
    unfold Init
    split
    · simp at h
    · rfl
  · intro h
    unfold invoke
    split
    · simp at h
    · rfl
  · intro h
    unfold delete
    split
    · simp at h
    · rfl
  · intro h e he
    match args, h with
    | [A, va, B, vb], _ =>
      unfold Init at he
      simp only at he
      split at he
      · obtain rfl : GoError.New "Expecting integer value for asset holding" = e := by
          simpa using he
        decide
      · split at he
        · obtain rfl : GoError.New "Expecting integer value for asset holding" = e := by
            simpa using he
          decide
        · split at he
          · rename_i hp
            obtain ⟨t, rfl⟩ := PutState_error _ _ _ _ _ hp
            obtain rfl : GoError.shim t = e := by simpa using he
            exact not_isArgumentCountError_shim t
          · split at he
            · rename_i hp
              obtain ⟨t, rfl⟩ := PutState_error _ _ _ _ _ hp
              obtain rfl : GoError.shim t = e := by simpa using he
              exact not_isArgumentCountError_shim t
            · simp at he
  · intro h e he
    match args, h with
    | [A, B, X], _ =>
      unfold invoke at he
      simp only at he
      split at he
      · obtain rfl : GoError.New "Failed to get state" = e := by simpa using he
        decide
      · obtain rfl : GoError.New "Entity not found" = e := by simpa using he
        decide
      · split at he
        · obtain rfl : GoError.New "Failed to get state" = e := by simpa using he
          decide
        · obtain rfl : GoError.New "Entity not found" = e := by simpa using he
          decide
        · split at he
          · rename_i hp
            obtain ⟨t, rfl⟩ := PutState_error _ _ _ _ _ hp
            obtain rfl : GoError.shim t = e := by simpa using he
            exact not_isArgumentCountError_shim t
          · split at he
            · rename_i hp
              obtain ⟨t, rfl⟩ := PutState_error _ _ _ _ _ hp
              obtain rfl : GoError.shim t = e := by simpa using he
              exact not_isArgumentCountError_shim t
            · simp at he
  · intro h e he
    match args, h with
    | [A], _ =>
      unfold delete at he
      simp only at he
      split at he
      · obtain rfl : GoError.New "Failed to delete state" = e := by simpa using he
        decide
      · simp at he

/-- Witness of C6: `Init` with three arguments, and `invoke` with three. -/
theorem argument_count_witness :
    Init stubAB "init" ["A", "1", "B"] =
        ((none, some (GoError.New "Incorrect number of arguments. Expecting 4")), stubAB) ∧
      ∀ e, (invoke stubAB ["A", "B", "1"]).1.2 = some e → ¬ isArgumentCountError e :=
  ⟨(argument_count stubAB "init" ["A", "1", "B"]).1 (by decide),
    (argument_count stubAB "init" ["A", "B", "1"]).2.2.2.2.1 rfl⟩

/-! ## Deletion -/

/-- C7: over a store whose delete of key k succeeds, `delete` returns no error
and leaves k with no stored value, and a second `delete` of k again returns
no error and leaves the ledger as the first one left it. -/
theorem delete_idempotent (stub : ChaincodeStub) (k : String) (hd : stub.delErr k = none) :
    (delete stub [k]).1 = (none, none) ∧
      (delete stub [k]).2.ledger k = none ∧
      (delete (delete stub [k]).2 [k]).1 = (none, none) ∧
      (delete (delete stub [k]).2 [k]).2.ledger = (delete stub [k]).2.ledger := by
  have h1 : delete stub [k] = ((none, none), { stub with
      calls := stub.calls ++ [Call.DelState k]
      ledger := fun j => if j = k then none else stub.ledger j }) := by
    simp [delete, DelState_ok, hd]
  rw [h1]
  refine ⟨rfl, by simp, ?_, ?_⟩
  · simp [delete, DelState_ok, hd]
  · simp only [delete, DelState_ok, hd]
    funext j
    by_cases hj : j = k <;> simp [hj]

/-- Witness of C7: deleting A twice from the store that holds A and B, and
deleting a key that was never stored. -/
theorem delete_idempotent_witness :
    ((delete stubAB ["A"]).1 = (none, none) ∧
      (delete stubAB ["A"]).2.ledger "A" = none ∧
      (delete (delete stubAB ["A"]).2 ["A"]).1 = (none, none) ∧
      (delete (delete stubAB ["A"]).2 ["A"]).2.ledger = (delete stubAB ["A"]).2.ledger) ∧
      (delete emptyStub ["never"]).1 = (none, none) :=
  ⟨delete_idempotent stubAB "A" rfl, (delete_idempotent emptyStub "never" rfl).1⟩

/-! ## The identity pipeline -/

/-- C8: when the encoded certificate URL-decodes, PEM-decodes and parses to a
certificate whose common name, split on the backslash, has a segment at index
2 that `Atoi` reads as `n`, `CheckAffiliation` returns `n` and no error. -/
theorem CheckAffiliation_code (env : Env) (stub : ChaincodeStub)
    (cert decodedCert pemBytes seg : String) (x509Cert : Certificate) (n : Int)
    (h1 : env.QueryUnescape cert = some decodedCert)
    (h2 : env.pemDecode decodedCert = some pemBytes)
    (h3 : env.ParseCertificate pemBytes = some x509Cert)
    (h4 : (Split x509Cert.CommonName)[2]? = some seg)
    (h5 : Atoi seg = (n, none)) :
    CheckAffiliation env stub cert = GoResult.ret (n, none) := by
  simp [CheckAffiliation, h1, h2, h3, h4, h5]

/-- Witness of C8: the common name alice\org1\2 gives the affiliation code 2. -/
theorem CheckAffiliation_code_witness :
    Split "alice\\org1\\2" = ["alice", "org1", "2"] ∧
      CheckAffiliation plainEnv emptyStub "alice\\org1\\2" = GoResult.ret (2, none) :=
  ⟨by decide,
    CheckAffiliation_code plainEnv emptyStub "alice\\org1\\2" "alice\\org1\\2" "alice\\org1\\2"
      "2" { CommonName := "alice\\org1\\2" } 2 rfl rfl rfl (by decide) (by decide)⟩

/-- A common name with fewer than three segments makes `CheckAffiliation`
panic at `res[2]`. -/
theorem CheckAffiliation_short (env : Env) (stub : ChaincodeStub)
    (cert decodedCert pemBytes : String) (x509Cert : Certificate)
    (h1 : env.QueryUnescape cert = some decodedCert)
    (h2 : env.pemDecode decodedCert = some pemBytes)
    (h3 : env.ParseCertificate pemBytes = some x509Cert)
    (h4 : (Split x509Cert.CommonName).length < 3) :
    CheckAffiliation env stub cert = GoResult.panic "index out of range" := by
  have h : (Split x509Cert.CommonName)[2]? = none := List.getElem?_eq_none (by omega)
  simp [CheckAffiliation, h1, h2, h3, h]

/-- C9: for the common name alice\org1, which has two segments, and likewise
for a common name without backslash and for the empty one, `CheckAffiliation`
does not return an error: the read of `res[2]` is out of range and panics. -/
theorem CheckAffiliation_two_segments :
    Split "alice\\org1" = ["alice", "org1"] ∧
      CheckAffiliation plainEnv emptyStub "alice\\org1" = GoResult.panic "index out of range" ∧
      CheckAffiliation plainEnv emptyStub "alice" = GoResult.panic "index out of range" ∧
      CheckAffiliation plainEnv emptyStub "" = GoResult.panic "index out of range" :=
  ⟨by decide,
    CheckAffiliation_short plainEnv emptyStub _ _ _ { CommonName := "alice\\org1" } rfl rfl rfl
      (by decide),
    CheckAffiliation_short plainEnv emptyStub _ _ _ { CommonName := "alice" } rfl rfl rfl
      (by decide),
    CheckAffiliation_short plainEnv emptyStub _ _ _ { CommonName := "" } rfl rfl rfl
      (by decide)⟩

theorem GetUsername_calls (env : Env) (stub : ChaincodeStub) :
    (GetUsername env stub).2 = { stub with calls := stub.calls ++ [Call.GetCallerCertificate] } := by
  unfold GetUsername ChaincodeStub.GetCallerCertificate
  cases stub.callerCertificate with
  | error e => rfl
  | ok bytes =>
    simp only []
    cases env.ParseCertificate (Option.getD (some bytes) "") <;> rfl

/-- C10: the first failing step of `GetCallerdata` gives the returned error and
nothing is run after it.  When the caller certificate cannot be obtained, or
is obtained and does not parse, the error of `GetUsername` is returned and the
only call recorded is the one for the caller certificate (no read of
"Peer_Address", no HTTP GET), the ledger being untouched; whenever
`GetUsername` returns an error, that error is returned with the stub as
`GetUsername` left it; when `GetUsername` succeeds and `GetEcert` fails, the
error of `GetEcert` is returned with the stub as `GetEcert` left it; when both
succeed and `CheckAffiliation` returns an error, that error is returned. -/
theorem GetCallerdata_short_circuit (env : Env) (stub : ChaincodeStub) :
    (∀ e, stub.callerCertificate = Except.error e →
        GetCallerdata env stub =
          GoResult.ret ((none, some (GoError.New "Couldn't retrieve caller certificate")),
            { stub with calls := stub.calls ++ [Call.GetCallerCertificate] })) ∧
      (∀ bytes, stub.callerCertificate = Except.ok bytes → env.ParseCertificate bytes = none →
        GetCallerdata env stub =
          GoResult.ret ((none, some (GoError.New "Couldn't parse certificate")),
            { stub with calls := stub.calls ++ [Call.GetCallerCertificate] })) ∧
      (∀ user err stub1, GetUsername env stub = ((user, some err), stub1) →
        GetCallerdata env stub = GoResult.ret ((none, some err), stub1) ∧
          stub1.calls = stub.calls ++ [Call.GetCallerCertificate] ∧
          stub1.ledger = stub.ledger) ∧
      (∀ user stub1 ecert err stub2, GetUsername env stub = ((user, none), stub1) →
        GetEcert env stub1 user = ((ecert, some err), stub2) →
        GetCallerdata env stub = GoResult.ret ((none, some err), stub2)) ∧
      (∀ user stub1 ecert stub2 code err, GetUsername env stub = ((user, none), stub1) →
        GetEcert env stub1 user = ((ecert, none), stub2) →
        CheckAffiliation env stub2 (ecert.getD "") = GoResult.ret (code, some err) →
        GetCallerdata env stub = GoResult.ret ((none, some err), stub2)) := by
  refine ⟨?_, ?_, ?_, ?_, ?_⟩
  · intro e h
    simp [GetCallerdata, GetUsername, ChaincodeStub.GetCallerCertificate, h]
  · intro bytes h hp
    simp [GetCallerdata, GetUsername, ChaincodeStub.GetCallerCertificate, h, hp]
  · intro user err stub1 h
    have hc := GetUsername_calls env stub
    rw [h] at hc
    simp only at hc
    subst hc
    exact ⟨by simp [GetCallerdata, h], rfl, rfl⟩
  · intro user stub1 ecert err stub2 h1 h2
    simp [GetCallerdata, h1, h2]
  · intro user stub1 ecert stub2 code err h1 h2 h3
    simp [GetCallerdata, h1, h2, h3]

/-- Witness of C10: with no caller certificate available, `GetCallerdata`
returns the error of `GetUsername` and only the certificate call is recorded. -/
theorem GetCallerdata_short_circuit_witness :
    GetCallerdata plainEnv emptyStub =
      GoResult.ret ((none, some (GoError.New "Couldn't retrieve caller certificate")),
        { emptyStub with calls := emptyStub.calls ++ [Call.GetCallerCertificate] }) :=
  (GetCallerdata_short_circuit plainEnv emptyStub).1 "no certificate" rfl

/-! ## What `Atoi` returns alongside an error -/

theorem parseIntSigned_value (neg : Bool) (s : List Char) :
    ((parseIntSigned neg s).2 = some NumError.ErrSyntax → (parseIntSigned neg s).1 = 0) ∧
      ((parseIntSigned neg s).2 = some NumError.ErrRange →
        (parseIntSigned neg s).1 = 2 ^ 63 - 1 ∨ (parseIntSigned neg s).1 = -2 ^ 63) ∧
      (-2 ^ 63 ≤ (parseIntSigned neg s).1 ∧ (parseIntSigned neg s).1 < 2 ^ 63) := by
  unfold parseIntSigned
  split
  · refine ⟨fun _ => rfl, fun h => by simp at h, ?_⟩
    constructor <;> simp
  · simp only []
    split_ifs
    all_goals refine ⟨fun h => ?_, fun h => ?_, ?_⟩
    all_goals first
      | exact wrapInt_inRange _
      | (simp at h; done)
      | (left; norm_num; done)
      | (right; norm_num; done)
      | (constructor <;> norm_num; done)

theorem Atoi_value (s : String) :
    ((Atoi s).2 = some NumError.ErrSyntax → (Atoi s).1 = 0) ∧
      ((Atoi s).2 = some NumError.ErrRange → (Atoi s).1 = 2 ^ 63 - 1 ∨ (Atoi s).1 = -2 ^ 63) ∧
      (-2 ^ 63 ≤ (Atoi s).1 ∧ (Atoi s).1 < 2 ^ 63) := by
  unfold Atoi ParseInt
  split
  · refine ⟨fun _ => rfl, fun h => by simp at h, ?_⟩
    constructor <;> simp
  · split_ifs
    · exact parseIntSigned_value _ _
    · exact parseIntSigned_value _ _
    · exact parseIntSigned_value _ _

/-! ## `Atoi` on numerals, and the bound that comes with a range error -/

theorem decimalAcc_ge (s : List Char) (n : Nat) : n ≤ decimalAcc s n := by
  induction s generalizing n with
  | nil => exact le_rfl
  | cons d s ih =>
    have := ih (n * 10 + (d.toNat - '0'.toNat))
    simp only [decimalAcc]
    omega

/-- On a string of digits the loop of `ParseUint` gives the number the digits
denote when that fits `uint64`, and the range error otherwise. -/
theorem parseUintLoop_digits (s : List Char) (n : Nat)
    (hs : ∀ c ∈ s, '0' ≤ c ∧ c ≤ '9') (hn : n ≤ maxUint64) :
    parseUintLoop s n =
      if decimalAcc s n ≤ maxUint64 then (decimalAcc s n, none)
      else (maxUint64, some NumError.ErrRange) := by
  induction s generalizing n with
  | nil => simp [parseUintLoop, decimalAcc, hn]
  | cons d s ih =>
    have hd := hs d (List.mem_cons_self d s)
    have hd9 : d.toNat ≤ 57 := Char.le_def.mp hd.2
    have hv : d.toNat - '0'.toNat ≤ 9 := by
      have h48 : '0'.toNat = 48 := rfl
      omega
    have hge := decimalAcc_ge s (n * 10 + (d.toNat - '0'.toNat))
    rw [parseUintLoop.eq_2, if_pos hd]
    simp only [decimalAcc]
    unfold maxUint64 at hn ih ⊢
    by_cases hc : n ≥ (2 ^ 64 - 1) / 10 + 1
    · rw [if_pos hc, if_neg (by omega)]
    · rw [if_neg hc]
      by_cases ho : n * 10 + (d.toNat - '0'.toNat) < 2 ^ 64
      · have hm : (n * 10 + (d.toNat - '0'.toNat)) % 2 ^ 64 = n * 10 + (d.toNat - '0'.toNat) :=
          Nat.mod_eq_of_lt ho
        rw [hm, if_neg (by omega)]
        exact ih _ (fun c hcm => hs c (List.mem_cons_of_mem d hcm)) (by omega)
      · have hm : (n * 10 + (d.toNat - '0'.toNat)) % 2 ^ 64 < n * 10 := by omega
        rw [if_pos (Or.inl hm), if_neg (by omega)]

/-- What `ParseInt` does with a non-empty string of digits once the sign is
off: below the cutoff the signed value, from the cutoff on the range error with
the bound of `int` on the side of the sign. -/
theorem parseIntSigned_digits (neg : Bool) (s : List Char) (hne : s ≠ [])
    (hs : ∀ c ∈ s, '0' ≤ c ∧ c ≤ '9') :
    parseIntSigned neg s =
      if neg = false then
        (if decimalValue s < 2 ^ 63 then ((decimalValue s : Int), none)
         else (2 ^ 63 - 1, some NumError.ErrRange))
      else
        (if decimalValue s ≤ 2 ^ 63 then (-(decimalValue s : Int), none)
         else (-2 ^ 63, some NumError.ErrRange)) := by
  have hP : ParseUint s =
      if decimalValue s ≤ maxUint64 then (decimalValue s, none)
      else (maxUint64, some NumError.ErrRange) := by
    unfold ParseUint decimalValue
    cases s with
    | nil => exact absurd rfl hne
    | cons d t => exact parseUintLoop_digits (d :: t) 0 hs (Nat.zero_le _)
  unfold parseIntSigned
  rw [hP]
  unfold maxUint64
  by_cases hfit : decimalValue s ≤ 2 ^ 64 - 1
  · rw [if_pos hfit]
    simp only []
    cases neg
    · by_cases hlt : decimalValue s < 2 ^ 63
      · rw [if_neg (fun h => absurd h.2 (by omega)), if_neg (by simp)]
        have hw : wrapInt (decimalValue s : Int) = (decimalValue s : Int) := by
          unfold wrapInt
          omega
        simp only [Bool.false_eq_true, if_false, if_true, hw, if_pos hlt]
      · rw [if_pos ⟨by simp, by omega⟩]
        simp only [if_true, if_neg hlt]
        norm_num
    · by_cases hle : decimalValue s ≤ 2 ^ 63
      · rw [if_neg (by simp), if_neg (fun h => absurd h.2 (by omega))]
        have hw : wrapInt (-wrapInt (decimalValue s : Int)) = -(decimalValue s : Int) := by
          unfold wrapInt
          omega
        simp only [Bool.true_eq_false, if_false, if_true, hw, if_pos hle]
      · rw [if_neg (by simp), if_pos ⟨rfl, by omega⟩]
        simp only [Bool.true_eq_false, if_false, if_neg hle]
        norm_num
  · rw [if_neg hfit]
    simp only []
    cases neg
    · rw [if_pos ⟨by simp, by omega⟩]
      simp only [if_true, if_neg (show ¬ decimalValue s < 2 ^ 63 by omega)]
      norm_num
    · rw [if_neg (by simp), if_pos ⟨rfl, by omega⟩]
      simp only [Bool.true_eq_false, if_false, if_neg (show ¬ decimalValue s ≤ 2 ^ 63 by omega)]
      norm_num

/-- With a range error `ParseInt` hands back the bound of `int` on the side
of the sign that was picked off. -/
theorem parseIntSigned_range (neg : Bool) (s : List Char)
    (h : (parseIntSigned neg s).2 = some NumError.ErrRange) :
    (parseIntSigned neg s).1 = if neg = true then -2 ^ 63 else 2 ^ 63 - 1 := by
  have key : ∀ (un : Nat) (e : Option NumError), e ≠ some NumError.ErrSyntax →
      ParseUint s = (un, e) →
      parseIntSigned neg s =
        if !neg ∧ un ≥ 2 ^ 63 then (((2 ^ 63 : Nat) : Int) - 1, some NumError.ErrRange)
        else if neg ∧ un > 2 ^ 63 then (-((2 ^ 63 : Nat) : Int), some NumError.ErrRange)
        else (if neg then wrapInt (-wrapInt un) else wrapInt un, none) := by
    intro un e he hP
    unfold parseIntSigned
    rw [hP]
    cases e with
    | none => rfl
    | some k =>
      cases k with
      | ErrSyntax => exact absurd rfl he
      | ErrRange => rfl
  rcases hP : ParseUint s with ⟨un, e⟩
  by_cases he : e = some NumError.ErrSyntax
  · subst he
    have hs : parseIntSigned neg s = (0, some NumError.ErrSyntax) := by
      unfold parseIntSigned
      rw [hP]
    rw [hs] at h
    simp at h
  · have hk := key un e he hP
    rw [hk] at h ⊢
    by_cases h1 : (!neg) = true ∧ un ≥ 2 ^ 63
    · have hn : neg = false := by
        cases neg
        · rfl
        · simp at h1
      rw [if_pos h1]
      subst hn
      norm_num
    · rw [if_neg h1] at h ⊢
      by_cases h2 : neg = true ∧ un > 2 ^ 63
      · rw [if_pos h2, if_pos h2.1]
        norm_num
      · rw [if_neg h2] at h
        simp at h

/-- With a range error `Atoi` hands back -2^63 when the text starts with a
minus sign and 2^63-1 otherwise. -/
theorem Atoi_range_bound (s : String) (h : (Atoi s).2 = some NumError.ErrRange) :
    (s.data.head? = some '-' → (Atoi s).1 = -2 ^ 63) ∧
      (s.data.head? ≠ some '-' → (Atoi s).1 = 2 ^ 63 - 1) := by
  unfold Atoi ParseInt at h ⊢
  cases hd : s.data with
  | nil =>
    rw [hd] at h
    simp at h
  | cons c rest =>
    rw [hd] at h
    simp only [] at h ⊢
    by_cases hp : c = '+'
    · rw [if_pos hp] at h ⊢
      have := parseIntSigned_range false rest h
      subst hp
      refine ⟨fun hm => ?_, fun _ => by simpa using this⟩
      simp at hm
    · rw [if_neg hp] at h ⊢
      by_cases hm : c = '-'
      · rw [if_pos hm] at h ⊢
        have := parseIntSigned_range true rest h
        refine ⟨fun _ => by simpa using this, fun hn => ?_⟩
        exact absurd (by simp [hm]) hn
      · rw [if_neg hm] at h ⊢
        have := parseIntSigned_range false (c :: rest) h
        refine ⟨fun hh => ?_, fun _ => by simpa using this⟩
        simp at hh
        exact absurd hh hm

/-- `Atoi` on a numeral, that is, a non-empty string of decimal digits `ds`
with or without sign: the number denoted when it is in the range of `int`,
and otherwise a range error with the nearest bound of `int`. -/
theorem Atoi_numeral (ds : List Char) (hne : ds ≠ []) (hs : ∀ c ∈ ds, '0' ≤ c ∧ c ≤ '9') :
    Atoi (String.mk ds) =
        (if decimalValue ds < 2 ^ 63 then ((decimalValue ds : Int), none)
         else (2 ^ 63 - 1, some NumError.ErrRange)) ∧
      Atoi (String.mk ('+' :: ds)) =
        (if decimalValue ds < 2 ^ 63 then ((decimalValue ds : Int), none)
         else (2 ^ 63 - 1, some NumError.ErrRange)) ∧
      Atoi (String.mk ('-' :: ds)) =
        (if decimalValue ds ≤ 2 ^ 63 then (-(decimalValue ds : Int), none)
         else (-2 ^ 63, some NumError.ErrRange)) := by
  have hpos := parseIntSigned_digits false ds hne hs
  have hneg := parseIntSigned_digits true ds hne hs
  simp only [if_true, Bool.true_eq_false, if_false] at hpos hneg
  refine ⟨?_, ?_, ?_⟩
  · cases ds with
    | nil => exact absurd rfl hne
    | cons d t =>
      have hd := hs d (List.mem_cons_self d t)
      have h48 : 48 ≤ d.toNat := Char.le_def.mp hd.1
      have hp : d ≠ '+' := by
        intro hcontra
        subst hcontra
        exact absurd h48 (by decide)
      have hm : d ≠ '-' := by
        intro hcontra
        subst hcontra
        exact absurd h48 (by decide)
      unfold Atoi ParseInt
      simp only []
      rw [if_neg hp, if_neg hm]
      exact hpos
  · unfold Atoi ParseInt
    simp only []
    rw [if_pos trivial]
    exact hpos
  · unfold Atoi ParseInt
    simp only []
    rw [if_neg (by decide), if_pos trivial]
    exact hneg

/-! ## The effect of `invoke` when both keys are present -/

/-- Over a store whose reads and writes of A and B succeed, with both keys
present, `invoke` makes two reads and two writes and returns no error. -/
theorem invoke_present (stub : ChaincodeStub) (A B X sa sb : String)
    (hA : stub.ledger A = some sa) (hB : stub.ledger B = some sb)
    (hgA : stub.getErr A = none) (hgB : stub.getErr B = none)
    (hpA : stub.putErr A = none) (hpB : stub.putErr B = none) :
    invoke stub [A, B, X] =
      ((none, none), { stub with
        calls := stub.calls ++ [Call.GetState A, Call.GetState B,
          Call.PutState A (Itoa (wrapInt ((Atoi sa).1 - (Atoi X).1))),
          Call.PutState B (Itoa (wrapInt ((Atoi sb).1 + (Atoi X).1)))]
        ledger := fun k =>
          if k = B then some (Itoa (wrapInt ((Atoi sb).1 + (Atoi X).1)))
          else if k = A then some (Itoa (wrapInt ((Atoi sa).1 - (Atoi X).1)))
          else stub.ledger k }) := by
  simp [invoke, GetState_ok, PutState_ok, hA, hB, hgA, hgB, hpA, hpB]

/-! ## Frame lemmas for the stub -/

theorem GetState_ledger (stub : ChaincodeStub) (key : String) :
    (stub.GetState key).2.ledger = stub.ledger := by
  unfold ChaincodeStub.GetState
  split <;> rfl

theorem PutState_ledger (stub : ChaincodeStub) (key value k : String) (h : k ≠ key) :
    (stub.PutState key value).2.ledger k = stub.ledger k := by
  unfold ChaincodeStub.PutState
  split
  · rfl
  · simp [h]

theorem DelState_ledger (stub : ChaincodeStub) (key k : String) (h : k ≠ key) :
    (stub.DelState key).2.ledger k = stub.ledger k := by
  unfold ChaincodeStub.DelState
  split
  · rfl
  · simp [h]

/-! ## The dispatcher -/

theorem Init_error_known (stub : ChaincodeStub) (function : String) (args : List String)
    (e : GoError) (he : (Init stub function args).1.2 = some e) :
    e ≠ GoError.New "Received unknown function invocation" := by
  unfold Init at he
  repeat' split at he
  all_goals first
    | (simp at he; done)
    | (simp only [Option.some.injEq] at he; subst he; decide)
    | (simp only [Option.some.injEq] at he; subst he
       obtain ⟨t, rfl⟩ := PutState_error _ _ _ _ _ (by assumption)
       simp)

theorem invoke_error_known (stub : ChaincodeStub) (args : List String)
    (e : GoError) (he : (invoke stub args).1.2 = some e) :
    e ≠ GoError.New "Received unknown function invocation" := by
  unfold invoke at he
  repeat' first
    | split at he
    | simp only [] at he
  all_goals first
    | (simp at he; done)
    | (simp only [Option.some.injEq] at he; subst he; decide)
    | (simp only [Option.some.injEq] at he; subst he
       obtain ⟨t, rfl⟩ := PutState_error _ _ _ _ _ (by assumption)
       simp)

theorem delete_error_known (stub : ChaincodeStub) (args : List String)
    (e : GoError) (he : (delete stub args).1.2 = some e) :
    e ≠ GoError.New "Received unknown function invocation" := by
  unfold delete at he
  repeat' split at he
  all_goals first
    | (simp at he; done)
    | (simp only [Option.some.injEq] at he; subst he; decide)

theorem ecert_text_ne (name : String) :
    "Could not retrieve ecert for user: " ++ name ≠ "Received unknown function invocation" := by
  intro h
  have hd := congrArg String.data h
  rw [String.data_append] at hd
  have hh := congrArg List.head? hd
  simp at hh

theorem GetUsername_error_known (env : Env) (stub : ChaincodeStub) (e : GoError)
    (he : (GetUsername env stub).1.2 = some e) :
    e ≠ GoError.New "Received unknown function invocation" := by
  unfold GetUsername at he
  repeat' split at he
  all_goals first
    | (simp at he; done)
    | (simp only [Option.some.injEq] at he; subst he; decide)

theorem GetEcert_error_known (env : Env) (stub : ChaincodeStub) (name : String) (e : GoError)
    (he : (GetEcert env stub name).1.2 = some e) :
    e ≠ GoError.New "Received unknown function invocation" := by
  unfold GetEcert at he
  repeat' first
    | split at he
    | simp only [] at he
  all_goals first
    | (simp at he; done)
    | (simp only [Option.some.injEq] at he; subst he; decide)
    | (simp only [Option.some.injEq] at he; subst he
       simp only [ne_eq, GoError.New.injEq]
       exact ecert_text_ne name)

theorem CheckAffiliation_error_known (env : Env) (stub : ChaincodeStub) (cert : String)
    (code : Int) (e : GoError) (he : CheckAffiliation env stub cert = GoResult.ret (code, some e)) :
    e ≠ GoError.New "Received unknown function invocation" := by
  unfold CheckAffiliation at he
  repeat' first
    | split at he
    | simp only [] at he
  all_goals first
    | (simp at he; done)
    | (simp only [GoResult.ret.injEq, Prod.mk.injEq, Option.some.injEq] at he
       obtain ⟨_, rfl⟩ := he
       decide)

theorem GetCallerdata_error_known (env : Env) (stub stub1 : ChaincodeStub) (r : Ret)
    (e : GoError) (h : GetCallerdata env stub = GoResult.ret (r, stub1)) (he : r.2 = some e) :
    e ≠ GoError.New "Received unknown function invocation" := by
  unfold GetCallerdata at h
  split at h
  · rename_i hu
    simp only [GoResult.ret.injEq, Prod.mk.injEq] at h
    obtain ⟨rfl, _⟩ := h
    simp only [Option.some.injEq] at he
    subst he
    exact GetUsername_error_known env stub _ (by rw [hu])
  · split at h
    · rename_i hc
      simp only [GoResult.ret.injEq, Prod.mk.injEq] at h
      obtain ⟨rfl, _⟩ := h
      simp only [Option.some.injEq] at he
      subst he
      exact GetEcert_error_known env _ _ _ (by rw [hc])
    · split at h
      · simp at h
      · rename_i ha
        simp only [GoResult.ret.injEq, Prod.mk.injEq] at h
        obtain ⟨rfl, _⟩ := h
        simp only [Option.some.injEq] at he
        subst he
        exact CheckAffiliation_error_known env _ _ _ _ ha
      · simp only [GoResult.ret.injEq, Prod.mk.injEq] at h
        obtain ⟨rfl, _⟩ := h
        simp at he

/-- Counterexample to C11 as stated: the names "transfer", "initialize" and
"getCallerData" are not known to `Invoke`; with A=100 and B=200, `Invoke` with
"transfer" returns the unknown-function error and leaves the stub as it was,
while `invoke` on the same arguments succeeds and moves 50 from A to B. -/
theorem Invoke_transfer_unknown :
    Invoke plainEnv stubAB "transfer" ["A", "B", "50"] =
        GoResult.ret
          ((none, some (GoError.New "Received unknown function invocation")), stubAB) ∧
      (invoke stubAB ["A", "B", "50"]).1 = (none, none) ∧
      (invoke stubAB ["A", "B", "50"]).2.ledger "A" = some "50" ∧
      stubAB.ledger "A" = some "100" ∧
      Invoke plainEnv stubAB "initialize" ["A", "1", "B", "2"] =
        GoResult.ret
          ((none, some (GoError.New "Received unknown function invocation")), stubAB) ∧
      Invoke plainEnv stubAB "getCallerData" [] =
        GoResult.ret
          ((none, some (GoError.New "Received unknown function invocation")), stubAB) := by
  refine ⟨by simp [Invoke], by decide, by decide, by decide, by simp [Invoke], by simp [Invoke]⟩

/-- C11 (amended): the names the dispatcher accepts for these operations are
"invoke", "init", "delete" and "callerData".  `Invoke` with "invoke" is
`invoke` on the arguments, with "init" it is `Init`, with "delete" it is
`delete`, with "callerData" it is `GetCallerdata`, and under none of these four
names is the unknown-function error returned. -/
theorem Invoke_dispatch (env : Env) (stub : ChaincodeStub) (args : List String) :
    Invoke env stub "invoke" args = GoResult.ret (invoke stub args) ∧
      Invoke env stub "init" args = GoResult.ret (Init stub "init" args) ∧
      Invoke env stub "delete" args = GoResult.ret (delete stub args) ∧
      Invoke env stub "callerData" args = GetCallerdata env stub ∧
      (∀ r stub1, Invoke env stub "invoke" args = GoResult.ret (r, stub1) →
        r.2 ≠ some (GoError.New "Received unknown function invocation")) ∧
      (∀ r stub1, Invoke env stub "init" args = GoResult.ret (r, stub1) →
        r.2 ≠ some (GoError.New "Received unknown function invocation")) ∧
      (∀ r stub1, Invoke env stub "delete" args = GoResult.ret (r, stub1) →
        r.2 ≠ some (GoError.New "Received unknown function invocation")) ∧
      (∀ r stub1, Invoke env stub "callerData" args = GoResult.ret (r, stub1) →
        r.2 ≠ some (GoError.New "Received unknown function invocation")) := by
  have h1 : Invoke env stub "invoke" args = GoResult.ret (invoke stub args) := by simp [Invoke]
  have h2 : Invoke env stub "init" args = GoResult.ret (Init stub "init" args) := by
    simp [Invoke]
  have h3 : Invoke env stub "delete" args = GoResult.ret (delete stub args) := by simp [Invoke]
  have h4 : Invoke env stub "callerData" args = GetCallerdata env stub := by simp [Invoke]
  refine ⟨h1, h2, h3, h4, ?_, ?_, ?_, ?_⟩
  · intro r stub1 h he
    rw [h1] at h
    simp only [GoResult.ret.injEq] at h
    exact invoke_error_known stub args _ (by rw [h]; exact he) rfl
  · intro r stub1 h he
    rw [h2] at h
    simp only [GoResult.ret.injEq] at h
    exact Init_error_known stub "init" args _ (by rw [h]; exact he) rfl
  · intro r stub1 h he
    rw [h3] at h
    simp only [GoResult.ret.injEq] at h
    exact delete_error_known stub args _ (by rw [h]; exact he) rfl
  · intro r stub1 h he
    rw [h4] at h
    exact GetCallerdata_error_known env stub stub1 r _ h he rfl

/-- Witness of C11 (amended): `Invoke` with "invoke" on A=100, B=200 and the
amount 50 is the transfer, and "callerData" with no certificate available gives
the error of `GetUsername`, not the unknown-function error. -/
theorem Invoke_dispatch_witness :
    Invoke plainEnv stubAB "invoke" ["A", "B", "50"] =
        GoResult.ret (invoke stubAB ["A", "B", "50"]) ∧
      ((none, some (GoError.New "Couldn't retrieve caller certificate")) : Ret).2 ≠
        some (GoError.New "Received unknown function invocation") :=
  ⟨(Invoke_dispatch plainEnv stubAB ["A", "B", "50"]).1,
    (Invoke_dispatch plainEnv emptyStub []).2.2.2.2.2.2.2
      (none, some (GoError.New "Couldn't retrieve caller certificate"))
      { emptyStub with calls := emptyStub.calls ++ [Call.GetCallerCertificate] } rfl⟩

/-! ## Stored values and amounts that are not integer text -/

/-- Counterexample to C12 as stated: "varun_name" holds the JSON bytes written
by `varunWrite`, which `Atoi` rejects, and B holds "200"; `invoke` from
"varun_name" to B with amount 5 returns no error and writes both keys, taking
the JSON bytes as the balance 0. -/
theorem invoke_json_balance :
    stubVarun.ledger "varun_name" = some "\x7b\"id\":\"24\"\x7d" ∧
      Atoi "\x7b\"id\":\"24\"\x7d" = (0, some NumError.ErrSyntax) ∧
      (invoke stubVarun ["varun_name", "B", "5"]).1 = (none, none) ∧
      (invoke stubVarun ["varun_name", "B", "5"]).2.ledger "varun_name" = some "-5" ∧
      (invoke stubVarun ["varun_name", "B", "5"]).2.ledger "B" = some "205" := by
  refine ⟨by decide, by decide, by decide, by decide, by decide⟩

/-- C12 (amended): `invoke` reads a stored value with `Atoi` and drops the
error.  Over a store whose reads and writes of A and B succeed, when distinct
keys A and B both hold a value, of whatever format, `invoke` returns no error
and writes both keys, computing with the value `Atoi` returns for each stored
text `s`: 0 when `Atoi` reports a syntax error; with a range error -2^63 when
the text starts with a minus sign and 2^63-1 otherwise, which for a numeral
(digits `ds` with or without sign) outside the range of `int` is the nearest
bound: 2^63-1 when the number is 2^63 or more, -2^63 when it is below -2^63. -/
theorem invoke_any_stored_text (stub : ChaincodeStub) (A B X sa sb : String)
    (hAB : A ≠ B)
    (hA : stub.ledger A = some sa) (hB : stub.ledger B = some sb)
    (hgA : stub.getErr A = none) (hgB : stub.getErr B = none)
    (hpA : stub.putErr A = none) (hpB : stub.putErr B = none) :
    (invoke stub [A, B, X]).1 = (none, none) ∧
      (invoke stub [A, B, X]).2.ledger A = some (Itoa (wrapInt ((Atoi sa).1 - (Atoi X).1))) ∧
      (invoke stub [A, B, X]).2.ledger B = some (Itoa (wrapInt ((Atoi sb).1 + (Atoi X).1))) ∧
      (∀ s, s = sa ∨ s = sb →
        ((Atoi s).2 = some NumError.ErrSyntax → (Atoi s).1 = 0) ∧
        ((Atoi s).2 = some NumError.ErrRange → s.data.head? = some '-' →
          (Atoi s).1 = -2 ^ 63) ∧
        ((Atoi s).2 = some NumError.ErrRange → s.data.head? ≠ some '-' →
          (Atoi s).1 = 2 ^ 63 - 1) ∧
        (∀ ds, ds ≠ [] → (∀ c ∈ ds, '0' ≤ c ∧ c ≤ '9') →
          ((s = String.mk ds ∨ s = String.mk ('+' :: ds)) → 2 ^ 63 ≤ decimalValue ds →
            Atoi s = (2 ^ 63 - 1, some NumError.ErrRange)) ∧
          (s = String.mk ('-' :: ds) → 2 ^ 63 < decimalValue ds →
            Atoi s = (-2 ^ 63, some NumError.ErrRange)))) := by
  rw [invoke_present stub A B X sa sb hA hB hgA hgB hpA hpB]
  refine ⟨rfl, by simp [hAB], by simp, ?_⟩
  intro s _
  refine ⟨(Atoi_value s).1, fun hr => (Atoi_range_bound s hr).1,
    fun hr => (Atoi_range_bound s hr).2, ?_⟩
  intro ds hne hds
  obtain ⟨h0, hplus, hminus⟩ := Atoi_numeral ds hne hds
  constructor
  · intro hs hv
    rcases hs with rfl | rfl
    · rw [h0, if_neg (by omega)]
    · rw [hplus, if_neg (by omega)]
  · intro hs hv
    subst hs
    rw [hminus, if_neg (by omega)]

/-- Witness of C12 (amended): the JSON bytes under "varun_name" count as 0, and
a stored numeral below the range of `int` counts as -2^63. -/
theorem invoke_any_stored_text_witness :
    ((invoke stubVarun ["varun_name", "B", "5"]).1 = (none, none) ∧
      (invoke stubVarun ["varun_name", "B", "5"]).2.ledger "varun_name" =
        some (Itoa (wrapInt ((Atoi "\x7b\"id\":\"24\"\x7d").1 - (Atoi "5").1))) ∧
      (Atoi "\x7b\"id\":\"24\"\x7d").1 = 0) ∧
      ((invoke stubBelowRange ["A", "B", "0"]).2.ledger "A" =
          some (Itoa (wrapInt ((Atoi "-9223372036854775809").1 - (Atoi "0").1))) ∧
        (Atoi "-9223372036854775809").1 = -2 ^ 63 ∧
        Atoi "-9223372036854775809" = (-2 ^ 63, some NumError.ErrRange)) :=
  ⟨⟨(invoke_any_stored_text stubVarun "varun_name" "B" "5" "\x7b\"id\":\"24\"\x7d" "200"
        (by decide) (by decide) (by decide) rfl rfl rfl rfl).1,
      (invoke_any_stored_text stubVarun "varun_name" "B" "5" "\x7b\"id\":\"24\"\x7d" "200"
        (by decide) (by decide) (by decide) rfl rfl rfl rfl).2.1,
      ((invoke_any_stored_text stubVarun "varun_name" "B" "5" "\x7b\"id\":\"24\"\x7d" "200"
        (by decide) (by decide) (by decide) rfl rfl rfl rfl).2.2.2 _ (Or.inl rfl)).1
        (by decide)⟩,
    ⟨(invoke_any_stored_text stubBelowRange "A" "B" "0" "-9223372036854775809" "200"
        (by decide) rfl rfl rfl rfl rfl rfl).2.1,
      ((invoke_any_stored_text stubBelowRange "A" "B" "0" "-9223372036854775809" "200"
        (by decide) rfl rfl rfl rfl rfl rfl).2.2.2 _ (Or.inl rfl)).2.1
        (by decide) (by decide),
      (((invoke_any_stored_text stubBelowRange "A" "B" "0" "-9223372036854775809" "200"
        (by decide) rfl rfl rfl rfl rfl rfl).2.2.2 _ (Or.inl rfl)).2.2.2
        "9223372036854775809".data (by decide) (by decide)).2 rfl (by decide)⟩⟩

/-- C13: over a store whose reads and writes of A and B succeed, when distinct
keys A and B both hold a value, `invoke` returns no error and writes both keys
whatever the amount text is, so also when `Atoi` rejects it; when the amount
text is syntactically no integer, A and B afterwards hold the decimal texts of
the balances that were read for them. -/
theorem invoke_amount_rejected (stub : ChaincodeStub) (A B X sa sb : String)
    (hAB : A ≠ B)
    (hA : stub.ledger A = some sa) (hB : stub.ledger B = some sb)
    (hgA : stub.getErr A = none) (hgB : stub.getErr B = none)
    (hpA : stub.putErr A = none) (hpB : stub.putErr B = none) :
    (invoke stub [A, B, X]).1 = (none, none) ∧
      (∃ va vb, (invoke stub [A, B, X]).2.calls =
          stub.calls ++ [Call.GetState A, Call.GetState B, Call.PutState A va,
            Call.PutState B vb] ∧
        (invoke stub [A, B, X]).2.ledger A = some va ∧
        (invoke stub [A, B, X]).2.ledger B = some vb) ∧
      ((Atoi X).2 = some NumError.ErrSyntax →
        (invoke stub [A, B, X]).2.ledger A = some (Itoa (Atoi sa).1) ∧
        (invoke stub [A, B, X]).2.ledger B = some (Itoa (Atoi sb).1)) := by
  rw [invoke_present stub A B X sa sb hA hB hgA hgB hpA hpB]
  refine ⟨rfl, ⟨_, _, rfl, by simp [hAB], by simp⟩, ?_⟩
  intro hs
  have hx0 : (Atoi X).1 = 0 := (Atoi_value X).1 hs
  have hwa : wrapInt ((Atoi sa).1 - 0) = (Atoi sa).1 := by
    rw [sub_zero]
    exact wrapInt_of_inRange _ (Atoi_value sa).2.2.1 (Atoi_value sa).2.2.2
  have hwb : wrapInt ((Atoi sb).1 + 0) = (Atoi sb).1 := by
    rw [add_zero]
    exact wrapInt_of_inRange _ (Atoi_value sb).2.2.1 (Atoi_value sb).2.2.2
  simp only [hx0, hwa, hwb]
  exact ⟨by simp [hAB], by simp⟩

/-- Witness of C13: the amount text "abc", which `Atoi` rejects, moves nothing
between A=100 and B=200. -/
theorem invoke_amount_rejected_witness :
    (Atoi "abc").2 = some NumError.ErrSyntax ∧
      (invoke stubAB ["A", "B", "abc"]).1 = (none, none) ∧
      (invoke stubAB ["A", "B", "abc"]).2.ledger "A" = some "100" ∧
      (invoke stubAB ["A", "B", "abc"]).2.ledger "B" = some "200" :=
  ⟨by decide,
    (invoke_amount_rejected stubAB "A" "B" "abc" "100" "200" (by decide) rfl rfl
      rfl rfl rfl rfl).1,
    ((invoke_amount_rejected stubAB "A" "B" "abc" "100" "200" (by decide) rfl rfl
      rfl rfl rfl rfl).2.2 (by decide)).1,
    ((invoke_amount_rejected stubAB "A" "B" "abc" "100" "200" (by decide) rfl rfl
      rfl rfl rfl rfl).2.2 (by decide)).2⟩

/-! ## Affiliation segments that are not integer text -/

/-- Counterexample to C14 as stated: in the common name
alice\org1\9223372036854775808 the segment at index 2 is a numeral one above
the largest `int`; `Atoi` rejects it with a range error, and
`CheckAffiliation` reports no error and returns 9223372036854775807, not 0. -/
theorem CheckAffiliation_out_of_range :
    Split "alice\\org1\\9223372036854775808" = ["alice", "org1", "9223372036854775808"] ∧
      Atoi "9223372036854775808" = (9223372036854775807, some NumError.ErrRange) ∧
      CheckAffiliation plainEnv emptyStub "alice\\org1\\9223372036854775808" =
        GoResult.ret (9223372036854775807, none) := by
  refine ⟨by decide, by decide, ?_⟩
  have h : (Split "alice\\org1\\9223372036854775808")[2]? = some "9223372036854775808" := by
    decide
  have ha : Atoi "9223372036854775808" = (9223372036854775807, some NumError.ErrRange) := by
    decide
  simp [CheckAffiliation, plainEnv, h, ha]

/-- C14 (amended): when the encoded certificate decodes and parses to a
certificate whose common name has a segment at index 2 that `Atoi` rejects,
`CheckAffiliation` reports no error and returns the value `Atoi` gives with
its error: 0 with a syntax error (non-numeric text, the empty segment); with
a range error -2^63 when the segment starts with a minus sign and 2^63-1
otherwise, which for a numeral (digits `ds` with or without sign) outside the
range of `int` is the nearest bound: 2^63-1 when the number is 2^63 or more,
-2^63 when it is below -2^63. -/
theorem CheckAffiliation_rejected_segment (env : Env) (stub : ChaincodeStub)
    (cert decodedCert pemBytes seg : String) (x509Cert : Certificate)
    (h1 : env.QueryUnescape cert = some decodedCert)
    (h2 : env.pemDecode decodedCert = some pemBytes)
    (h3 : env.ParseCertificate pemBytes = some x509Cert)
    (h4 : (Split x509Cert.CommonName)[2]? = some seg)
    (h5 : (Atoi seg).2 ≠ none) :
    CheckAffiliation env stub cert = GoResult.ret ((Atoi seg).1, none) ∧
      ((Atoi seg).2 = some NumError.ErrSyntax →
        CheckAffiliation env stub cert = GoResult.ret (0, none)) ∧
      ((Atoi seg).2 = some NumError.ErrRange → seg.data.head? = some '-' →
        CheckAffiliation env stub cert = GoResult.ret (-2 ^ 63, none)) ∧
      ((Atoi seg).2 = some NumError.ErrRange → seg.data.head? ≠ some '-' →
        CheckAffiliation env stub cert = GoResult.ret (2 ^ 63 - 1, none)) ∧
      (∀ ds, ds ≠ [] → (∀ c ∈ ds, '0' ≤ c ∧ c ≤ '9') →
        ((seg = String.mk ds ∨ seg = String.mk ('+' :: ds)) → 2 ^ 63 ≤ decimalValue ds →
          CheckAffiliation env stub cert = GoResult.ret (2 ^ 63 - 1, none)) ∧
        (seg = String.mk ('-' :: ds) → 2 ^ 63 < decimalValue ds →
          CheckAffiliation env stub cert = GoResult.ret (-2 ^ 63, none))) ∧
      ((Atoi seg).2 = some NumError.ErrSyntax ∨ (Atoi seg).2 = some NumError.ErrRange) := by
  have h : CheckAffiliation env stub cert = GoResult.ret ((Atoi seg).1, none) := by
    simp [CheckAffiliation, h1, h2, h3, h4]
  refine ⟨h, ?_, ?_, ?_, ?_, ?_⟩
  · intro hs
    rw [h, (Atoi_value seg).1 hs]
  · intro hr hm
    rw [h, (Atoi_range_bound seg hr).1 hm]
  · intro hr hm
    rw [h, (Atoi_range_bound seg hr).2 hm]
  · intro ds hne hds
    obtain ⟨h0, hplus, hminus⟩ := Atoi_numeral ds hne hds
    constructor
    · intro hs hv
      rcases hs with rfl | rfl
      · rw [h, h0, if_neg (by omega)]
      · rw [h, hplus, if_neg (by omega)]
    · intro hs hv
      subst hs
      rw [h, hminus, if_neg (by omega)]
  · rcases hseg : (Atoi seg).2 with _ | e
    · exact absurd hseg h5
    · cases e
      · exact Or.inl rfl
      · exact Or.inr rfl

/-- Witness of C14 (amended): the segments "x" and "" give the code 0, and the
segment -9223372036854775809, a numeral below the range of `int`, gives -2^63. -/
theorem CheckAffiliation_rejected_segment_witness :
    CheckAffiliation plainEnv emptyStub "alice\\org1\\x" = GoResult.ret (0, none) ∧
      CheckAffiliation plainEnv emptyStub "alice\\org1\\" = GoResult.ret (0, none) ∧
      CheckAffiliation plainEnv emptyStub "alice\\org1\\-9223372036854775809" =
        GoResult.ret (-2 ^ 63, none) :=
  ⟨(CheckAffiliation_rejected_segment plainEnv emptyStub "alice\\org1\\x" "alice\\org1\\x"
      "alice\\org1\\x" "x" { CommonName := "alice\\org1\\x" } rfl rfl rfl (by decide)
      (by decide)).2.1 (by decide),
    (CheckAffiliation_rejected_segment plainEnv emptyStub "alice\\org1\\" "alice\\org1\\"
      "alice\\org1\\" "" { CommonName := "alice\\org1\\" } rfl rfl rfl (by decide)
      (by decide)).2.1 (by decide),
    (CheckAffiliation_rejected_segment plainEnv emptyStub "alice\\org1\\-9223372036854775809"
      "alice\\org1\\-9223372036854775809" "alice\\org1\\-9223372036854775809"
      "-9223372036854775809" { CommonName := "alice\\org1\\-9223372036854775809" } rfl rfl rfl
      (by decide) (by decide)).2.2.1 (by decide) (by decide)⟩

/-! ## Query -/

/-- C15: `Query` with the function name "query" returns the error of line 207
with the stub as it was (no call to the store), for every argument list; with
any other function name it is `varunRead`: for a first argument "state" it
returns what `GetState` gives for "varun_name" (the stored bytes when that
read succeeds), for any other first argument the bytes "Finally it works";
whenever `Query` returns, the ledger is what it was. -/
theorem Query_behaviour (stub : ChaincodeStub) (function : String) (args : List String) :
    Query stub "query" args =
        GoResult.ret
          ((none, some (GoError.New "Invalid query function name. Expecting \"query\"")),
            stub) ∧
      (function ≠ "query" → Query stub function args = varunRead stub args) ∧
      (function ≠ "query" → ∀ rest, Query stub function ("state" :: rest) =
        GoResult.ret (stub.GetState "varun_name")) ∧
      (function ≠ "query" → stub.getErr "varun_name" = none → ∀ rest,
        Query stub function ("state" :: rest) =
          GoResult.ret ((stub.ledger "varun_name", none),
            { stub with calls := stub.calls ++ [Call.GetState "varun_name"] })) ∧
      (function ≠ "query" → ∀ a rest, a ≠ "state" → Query stub function (a :: rest) =
        GoResult.ret ((some "Finally it works", none), stub)) ∧
      (∀ r stub1, Query stub function args = GoResult.ret (r, stub1) →
        stub1.ledger = stub.ledger) := by
  refine ⟨by simp [Query], ?_, ?_, ?_, ?_, ?_⟩
  · intro hf
    simp [Query, hf]
  · intro hf rest
    simp [Query, hf, varunRead]
  · intro hf hg rest
    simp [Query, hf, varunRead, GetState_ok, hg]
  · intro hf a rest ha
    simp [Query, hf, varunRead, ha]
  · intro r stub1 h
    unfold Query at h
    split at h
    · simp only [GoResult.ret.injEq, Prod.mk.injEq] at h
      rw [← h.2]
    · unfold varunRead at h
      split at h
      · simp at h
      · split at h
        · simp only [GoResult.ret.injEq] at h
          have hl := GetState_ledger stub "varun_name"
          rw [h] at hl
          exact hl
        · simp only [GoResult.ret.injEq, Prod.mk.injEq] at h
          rw [← h.2]

/-- Witness of C15: on the store that holds the JSON bytes under "varun_name",
the function name "read" with the argument "state" returns those bytes, and
with the argument "A" the constant bytes. -/
theorem Query_behaviour_witness :
    Query stubVarun "read" ["state"] =
        GoResult.ret ((stubVarun.ledger "varun_name", none),
          { stubVarun with calls := stubVarun.calls ++ [Call.GetState "varun_name"] }) ∧
      stubVarun.ledger "varun_name" = some "\x7b\"id\":\"24\"\x7d" ∧
      Query stubVarun "read" ["A"] =
        GoResult.ret ((some "Finally it works", none), stubVarun) :=
  ⟨(Query_behaviour stubVarun "read" ["state"]).2.2.2.1 (by decide) rfl [],
    by decide,
    (Query_behaviour stubVarun "read" ["A"]).2.2.2.2.1 (by decide) "A" [] (by decide)⟩

/-! ## A failing second write -/

/-- C16: over a store where the write of A succeeds and the write of B fails
with error `e`, for distinct keys A and B: `Init` with accepted value texts
returns `e`, and afterwards A holds its new value while B holds what it held
before; likewise `invoke`, when both keys are present and their reads succeed,
returns `e`, A holds the debited value and B its old value. -/
theorem second_write_fails (stub : ChaincodeStub) (A B e : String) (hAB : A ≠ B)
    (hpA : stub.putErr A = none) (hpB : stub.putErr B = some e) :
    (∀ function va vb a b, Atoi va = (a, none) → Atoi vb = (b, none) →
        (Init stub function [A, va, B, vb]).1 = (none, some (GoError.shim e)) ∧
          (Init stub function [A, va, B, vb]).2.ledger A = some (Itoa a) ∧
          (Init stub function [A, va, B, vb]).2.ledger B = stub.ledger B) ∧
      (∀ X sa sb, stub.ledger A = some sa → stub.ledger B = some sb →
        stub.getErr A = none → stub.getErr B = none →
        (invoke stub [A, B, X]).1 = (none, some (GoError.shim e)) ∧
          (invoke stub [A, B, X]).2.ledger A =
            some (Itoa (wrapInt ((Atoi sa).1 - (Atoi X).1))) ∧
          (invoke stub [A, B, X]).2.ledger B = stub.ledger B) := by
  have hBA : B ≠ A := fun h => hAB h.symm
  constructor
  · intro function va vb a b ha hb
    simp [Init, ha, hb, PutState_ok, hpA, ChaincodeStub.PutState, hpB, hBA]
  · intro X sa sb hA hB hgA hgB
    simp [invoke, GetState_ok, hgA, hgB, hA, hB, PutState_ok, hpA, ChaincodeStub.PutState, hpB,
      hBA]

/-- Witness of C16: on the store that refuses writes of B, `Init` leaves A=7
and B=200, and the transfer of 50 leaves A=50 and B=200. -/
theorem second_write_fails_witness :
    ((Init stubWriteFails "init" ["A", "7", "B", "9"]).1 =
        (none, some (GoError.shim "write refused")) ∧
      (Init stubWriteFails "init" ["A", "7", "B", "9"]).2.ledger "A" = some "7" ∧
      (Init stubWriteFails "init" ["A", "7", "B", "9"]).2.ledger "B" = some "200") ∧
      ((invoke stubWriteFails ["A", "B", "50"]).1 =
          (none, some (GoError.shim "write refused")) ∧
        (invoke stubWriteFails ["A", "B", "50"]).2.ledger "A" = some "50" ∧
        (invoke stubWriteFails ["A", "B", "50"]).2.ledger "B" = some "200") :=
  ⟨(second_write_fails stubWriteFails "A" "B" "write refused" (by decide) rfl rfl).1
      "init" "7" "9" 7 9 (by decide) (by decide),
    (second_write_fails stubWriteFails "A" "B" "write refused" (by decide) rfl rfl).2
      "50" "100" "200" rfl rfl rfl rfl⟩

/-! ## Run and Invoke -/

/-- `Run` and `Invoke` agree on every function name other than "varunWrite"
and "callerData". -/
theorem Invoke_eq_Run (env : Env) (stub : ChaincodeStub) (function : String)
    (args : List String) (h1 : function ≠ "varunWrite") (h2 : function ≠ "callerData") :
    Invoke env stub function args = GoResult.ret (Run stub function args) := by
  unfold Invoke Run
  split_ifs <;> rfl

/-- C17: `Run` is not `Invoke` on the function names "varunWrite" and
"callerData": on a reliable empty store `Run` returns the unknown-function
error for both and leaves the stub as it was, while `Invoke` with "varunWrite"
returns no error and writes "varun_name", and `Invoke` with "callerData" returns
the error of `GetUsername` after asking for the caller certificate. -/
theorem Run_varunWrite :
    Run emptyStub "varunWrite" [] =
        ((none, some (GoError.New "Received unknown function invocation")), emptyStub) ∧
      Invoke plainEnv emptyStub "varunWrite" [] =
        GoResult.ret (varunWrite emptyStub []) ∧
      (varunWrite emptyStub []).1 = (none, none) ∧
      (varunWrite emptyStub []).2.ledger "varun_name" = some "\x7b\"id\":\"24\"\x7d" ∧
      emptyStub.ledger "varun_name" = none ∧
      Run emptyStub "callerData" [] =
        ((none, some (GoError.New "Received unknown function invocation")), emptyStub) ∧
      Invoke plainEnv emptyStub "callerData" [] =
        GoResult.ret ((none, some (GoError.New "Couldn't retrieve caller certificate")),
          { emptyStub with calls := emptyStub.calls ++ [Call.GetCallerCertificate] }) := by
  refine ⟨by simp [Run], by simp [Invoke], by decide, by decide, by decide, by simp [Run], ?_⟩
  simp [Invoke, GetCallerdata, GetUsername, ChaincodeStub.GetCallerCertificate, emptyStub]

/-! ## Frame -/

theorem PutState_ledger_of_eq (stub stub1 : ChaincodeStub) (key value k : String)
    (r : Option GoError) (h : stub.PutState key value = (r, stub1)) (hk : key ≠ k) :
    stub1.ledger k = stub.ledger k := by
  have := PutState_ledger stub key value k (fun hkk => hk hkk.symm)
  rw [h] at this
  exact this

theorem GetState_ledger_of_eq (stub stub1 : ChaincodeStub) (key : String)
    (r : Option String × Option GoError) (h : stub.GetState key = (r, stub1)) :
    stub1.ledger = stub.ledger := by
  have := GetState_ledger stub key
  rw [h] at this
  exact this

theorem Init_frame (stub : ChaincodeStub) (function : String) (args : List String) (k : String)
    (h0 : args[0]? ≠ some k) (h2 : args[2]? ≠ some k) :
    (Init stub function args).2.ledger k = stub.ledger k := by
  unfold Init
  split
  · rename_i A a1 B a3
    have hA : A ≠ k := by simpa using h0
    have hB : B ≠ k := by simpa using h2
    split
    · rfl
    · split
      · rfl
      · split
        · rename_i hp1
          exact PutState_ledger_of_eq _ _ _ _ _ _ hp1 hA
        · rename_i hp1
          split
          · rename_i hp2
            show _ = _
            rw [PutState_ledger_of_eq _ _ _ _ _ _ hp2 hB,
              PutState_ledger_of_eq _ _ _ _ _ _ hp1 hA]
          · rename_i hp2
            show _ = _
            rw [PutState_ledger_of_eq _ _ _ _ _ _ hp2 hB,
              PutState_ledger_of_eq _ _ _ _ _ _ hp1 hA]
  · rfl

theorem invoke_frame (stub : ChaincodeStub) (args : List String) (k : String)
    (h0 : args[0]? ≠ some k) (h1 : args[1]? ≠ some k) :
    (invoke stub args).2.ledger k = stub.ledger k := by
  unfold invoke
  split
  · rename_i A B a2
    have hA : A ≠ k := by simpa using h0
    have hB : B ≠ k := by simpa using h1
    split
    · rename_i hg1
      exact congrFun (GetState_ledger_of_eq _ _ _ _ hg1) k
    · rename_i hg1
      exact congrFun (GetState_ledger_of_eq _ _ _ _ hg1) k
    · rename_i hg1
      have e1 := GetState_ledger_of_eq _ _ _ _ hg1
      simp only []
      split
      · rename_i hg2
        show _ = _
        rw [GetState_ledger_of_eq _ _ _ _ hg2, e1]
      · rename_i hg2
        show _ = _
        rw [GetState_ledger_of_eq _ _ _ _ hg2, e1]
      · rename_i hg2
        have e2 := GetState_ledger_of_eq _ _ _ _ hg2
        split
        · rename_i hp1
          show _ = _
          rw [PutState_ledger_of_eq _ _ _ _ _ _ hp1 hA, e2, e1]
        · rename_i hp1
          split
          · rename_i hp2
            show _ = _
            rw [PutState_ledger_of_eq _ _ _ _ _ _ hp2 hB,
              PutState_ledger_of_eq _ _ _ _ _ _ hp1 hA, e2, e1]
          · rename_i hp2
            show _ = _
            rw [PutState_ledger_of_eq _ _ _ _ _ _ hp2 hB,
              PutState_ledger_of_eq _ _ _ _ _ _ hp1 hA, e2, e1]
  · rfl

theorem delete_frame (stub : ChaincodeStub) (args : List String) (k : String)
    (h0 : args[0]? ≠ some k) :
    (delete stub args).2.ledger k = stub.ledger k := by
  unfold delete
  split
  · rename_i A
    have hA : k ≠ A := by
      intro h
      exact h0 (by simp [h])
    have := DelState_ledger stub A k hA
    split
    · rename_i hd
      rw [hd] at this
      exact this
    · rename_i hd
      rw [hd] at this
      exact this
  · rfl

theorem varunWrite_frame (stub : ChaincodeStub) (args : List String) (k : String)
    (hk : k ≠ "varun_name") :
    (varunWrite stub args).2.ledger k = stub.ledger k := by
  unfold varunWrite
  simp only []
  split
  · rename_i hp
    exact PutState_ledger_of_eq _ _ _ _ _ _ hp (fun h => hk h.symm)
  · rename_i hp
    exact PutState_ledger_of_eq _ _ _ _ _ _ hp (fun h => hk h.symm)

/-- C18: whether the call succeeds or fails, and whatever the number of
arguments, `Init` leaves every key other than `args[0]` and `args[2]` as it
was, `invoke` every key other than `args[0]` and `args[1]`, `delete` every key
other than `args[0]`, `varunWrite` every key other than "varun_name"; and
`Invoke` with a function name outside invoke, init, delete, varunWrite and
callerData returns the unknown-function error with the stub as it was. -/
theorem ledger_frame (env : Env) (stub : ChaincodeStub) (function : String)
    (args : List String) (k : String) :
    (args[0]? ≠ some k → args[2]? ≠ some k →
        (Init stub function args).2.ledger k = stub.ledger k) ∧
      (args[0]? ≠ some k → args[1]? ≠ some k →
        (invoke stub args).2.ledger k = stub.ledger k) ∧
      (args[0]? ≠ some k → (delete stub args).2.ledger k = stub.ledger k) ∧
      (k ≠ "varun_name" → (varunWrite stub args).2.ledger k = stub.ledger k) ∧
      (function ≠ "invoke" → function ≠ "init" → function ≠ "delete" →
        function ≠ "varunWrite" → function ≠ "callerData" →
        Invoke env stub function args =
          GoResult.ret
            ((none, some (GoError.New "Received unknown function invocation")), stub)) := by
  refine ⟨Init_frame stub function args k, invoke_frame stub args k, delete_frame stub args k,
    varunWrite_frame stub args k, ?_⟩
  intro h1 h2 h3 h4 h5
  simp [Invoke, h1, h2, h3, h4, h5]

/-- Witness of C18: the transfer between A and B leaves "varun_name" as it was,
and the function name "transfer" is unknown to `Invoke`. -/
theorem ledger_frame_witness :
    (invoke stubVarun ["A", "B", "50"]).2.ledger "varun_name" = stubVarun.ledger "varun_name" ∧
      Invoke plainEnv stubVarun "transfer" ["A", "B", "50"] =
        GoResult.ret
          ((none, some (GoError.New "Received unknown function invocation")), stubVarun) :=
  ⟨(ledger_frame plainEnv stubVarun "transfer" ["A", "B", "50"] "varun_name").2.1
      (by decide) (by decide),
    (ledger_frame plainEnv stubVarun "transfer" ["A", "B", "50"] "varun_name").2.2.2.2
      (by decide) (by decide) (by decide) (by decide) (by decide)⟩

/-! ## Reverse transfer and self-transfer -/

theorem wrapInt_sub_add (a x : Int) (h1 : -2 ^ 63 ≤ a) (h2 : a < 2 ^ 63) :
    wrapInt (wrapInt (a - x) + x) = a := by
  unfold wrapInt
  omega

theorem wrapInt_add_sub (b x : Int) (h1 : -2 ^ 63 ≤ b) (h2 : b < 2 ^ 63) :
    wrapInt (wrapInt (b + x) - x) = b := by
  unfold wrapInt
  omega

theorem wrapInt_sum (a b x : Int) :
    wrapInt (wrapInt (a - x) + wrapInt (b + x)) = wrapInt (a + b) := by
  unfold wrapInt
  omega

/-- C19: over a store whose reads and writes of A and B succeed, when distinct
keys A and B hold the canonical decimal texts of `a` and `b`, both in the
range of `int`, and `Atoi` reads the amount text as `x`: the transfer from A to
B succeeds and leaves the wrapped balances `a - x` and `b + x`, the transfer
back from B to A with the same amount succeeds too and leaves the ledger equal
to the initial one, and the wrapped sum of the two balances after the first
transfer is the wrapped sum before it. -/
theorem invoke_reverse (stub : ChaincodeStub) (A B X : String) (a b x : Int) (hAB : A ≠ B)
    (ha1 : -2 ^ 63 ≤ a) (ha2 : a < 2 ^ 63) (hb1 : -2 ^ 63 ≤ b) (hb2 : b < 2 ^ 63)
    (hA : stub.ledger A = some (Itoa a)) (hB : stub.ledger B = some (Itoa b))
    (hx : Atoi X = (x, none))
    (hgA : stub.getErr A = none) (hgB : stub.getErr B = none)
    (hpA : stub.putErr A = none) (hpB : stub.putErr B = none) :
    (invoke stub [A, B, X]).1 = (none, none) ∧
      (invoke stub [A, B, X]).2.ledger A = some (Itoa (wrapInt (a - x))) ∧
      (invoke stub [A, B, X]).2.ledger B = some (Itoa (wrapInt (b + x))) ∧
      (invoke (invoke stub [A, B, X]).2 [B, A, X]).1 = (none, none) ∧
      (invoke (invoke stub [A, B, X]).2 [B, A, X]).2.ledger = stub.ledger ∧
      wrapInt (wrapInt (a - x) + wrapInt (b + x)) = wrapInt (a + b) := by
  have hBA : B ≠ A := fun h => hAB h.symm
  have h1 := invoke_present stub A B X (Itoa a) (Itoa b) hA hB hgA hgB hpA hpB
  rw [Atoi_Itoa a ha1 ha2, Atoi_Itoa b hb1 hb2, hx] at h1
  simp only [] at h1
  rw [h1]
  have hwa := wrapInt_inRange (a - x)
  have hwb := wrapInt_inRange (b + x)
  have h2 := invoke_present
    { stub with
      calls := stub.calls ++ [Call.GetState A, Call.GetState B,
        Call.PutState A (Itoa (wrapInt (a - x))), Call.PutState B (Itoa (wrapInt (b + x)))]
      ledger := fun k =>
        if k = B then some (Itoa (wrapInt (b + x)))
        else if k = A then some (Itoa (wrapInt (a - x)))
        else stub.ledger k }
    B A X (Itoa (wrapInt (b + x))) (Itoa (wrapInt (a - x)))
    (by simp) (by simp [hAB]) hgB hgA hpB hpA
  rw [Atoi_Itoa _ hwa.1 hwa.2, Atoi_Itoa _ hwb.1 hwb.2, hx] at h2
  simp only [] at h2
  rw [h2]
  refine ⟨rfl, by simp [hAB], by simp, rfl, ?_, wrapInt_sum a b x⟩
  funext k
  simp only [wrapInt_sub_add a x ha1 ha2, wrapInt_add_sub b x hb1 hb2]
  by_cases hkA : k = A
  · simp [hkA, hA]
  · by_cases hkB : k = B
    · simp [hkB, hB, hBA]
    · simp [hkA, hkB]

/-- Witness of C19: moving 50 from A=100 to B=200 and back. -/
theorem invoke_reverse_witness :
    (invoke (invoke stubAB ["A", "B", "50"]).2 ["B", "A", "50"]).1 = (none, none) ∧
      (invoke (invoke stubAB ["A", "B", "50"]).2 ["B", "A", "50"]).2.ledger = stubAB.ledger :=
  ⟨(invoke_reverse stubAB "A" "B" "50" 100 200 50 (by decide) (by decide) (by decide)
      (by decide) (by decide) (by decide) (by decide) (by decide) rfl rfl rfl rfl).2.2.2.1,
    (invoke_reverse stubAB "A" "B" "50" 100 200 50 (by decide) (by decide) (by decide)
      (by decide) (by decide) (by decide) (by decide) (by decide) rfl rfl rfl rfl).2.2.2.2.1⟩

/-- C20: over a store whose reads and writes of A succeed, when A holds a text
that `Atoi` reads as `v` and the amount text reads as `x`, `invoke` from A to A
succeeds: both balances are read before either write, the write of the
debited value comes first and the write of the credited value second, so A
ends holding the decimal text of `v + x` in 64-bit arithmetic, which is
`v + x` itself whenever that is in the range of `int`. -/
theorem invoke_self (stub : ChaincodeStub) (A X sa : String) (v x : Int)
    (hA : stub.ledger A = some sa) (hv : Atoi sa = (v, none)) (hx : Atoi X = (x, none))
    (hgA : stub.getErr A = none) (hpA : stub.putErr A = none) :
    (invoke stub [A, A, X]).1 = (none, none) ∧
      (invoke stub [A, A, X]).2.ledger A = some (Itoa (wrapInt (v + x))) ∧
      (invoke stub [A, A, X]).2.calls =
        stub.calls ++ [Call.GetState A, Call.GetState A,
          Call.PutState A (Itoa (wrapInt (v - x))), Call.PutState A (Itoa (wrapInt (v + x)))] ∧
      (-2 ^ 63 ≤ v + x → v + x < 2 ^ 63 →
        (invoke stub [A, A, X]).2.ledger A = some (Itoa (v + x))) := by
  have h1 := invoke_present stub A A X sa sa hA hA hgA hgA hpA hpA
  rw [hv, hx] at h1
  simp only [] at h1
  rw [h1]
  refine ⟨rfl, by simp, rfl, ?_⟩
  intro hl hu
  rw [wrapInt_of_inRange _ hl hu]
  simp

/-- Witness of C20: with A=100, the transfer of 50 from A to A leaves A=150. -/
theorem invoke_self_witness :
    (invoke stubAB ["A", "A", "50"]).1 = (none, none) ∧
      (invoke stubAB ["A", "A", "50"]).2.ledger "A" = some "150" :=
  ⟨(invoke_self stubAB "A" "50" "100" 100 50 rfl (by decide) (by decide) rfl rfl).1,
    (invoke_self stubAB "A" "50" "100" 100 50 rfl (by decide) (by decide) rfl rfl).2.1⟩

end Chaincode
